import Mathlib

/-!
# Verification of the `whatsappweb-rs` session engine

Shallow embedding of the library's data model and connection engine
(`src/lib.rs`, `src/message.rs`, `src/session.rs`, `src/req.rs`,
`src/conn.rs`, `src/errors.rs`, `src/event.rs`) together with proofs of the
specification's claims about it.

Machine integers (`u32` counters) are modelled as `Nat` with explicit
reduction modulo `2 ^ 32` where the source performs wrapping arithmetic.
Fallible operations return `Except` / an explicit outcome type; a Rust
`panic!` / `unwrap()` on `None` is modelled as a distinct `panicked`
outcome.  Wire-level modules that are not part of the source tree
(`crypto.rs`, `node_wire.rs`, `node_protocol.rs`, `json_protocol.rs`,
`websocket_protocol.rs`) are modelled symbolically from the spec, each
marked `Modelled from the spec:` in its doc comment.
-/

namespace WaWeb

/-- Disconnect reasons, from `errors.rs` (`DisconnectReason`). -/
inductive DisconnectReason
  | Replaced
  | Removed
deriving DecidableEq, Repr

/-- The library error type, from `errors.rs` (`WaError`).  Variants that wrap
foreign library errors (`Io`, `Websocket`, `Json`, …) carry a plain string
placeholder for the foreign payload; all variants the engine itself
constructs are modelled exactly. -/
inductive WaError
  | Io (msg : String)
  | Websocket (msg : String)
  | Crypto
  | Json (msg : String)
  | Base64 (msg : String)
  | Protobuf (msg : String)
  | Qr (msg : String)
  | NodeAttributeMissing (name : String)
  | JsonFieldMissing (name : String)
  | Context (ctx : String) (inner : String)
  | InvalidTag (b : Nat)
  | InvalidPayload (callback : String) (kind : String)
  | InvalidSessionState
  | NoJidYet
  | InvalidDirection
  | Timeout
  | WebsocketDisconnected
  | TimerFailed
  | StatusCode (n : Nat)
  | Disconnected (r : DisconnectReason)
  | UntypedOwned (s : String)
  | Untyped (s : String)
deriving DecidableEq, Repr

/-- JID identifying either a group or an individual, from `lib.rs`
(`pub struct Jid`). -/
structure Jid where
  id : String
  is_group : Bool
deriving DecidableEq, Repr

/-- Model of `Jid::to_string` from `lib.rs`: append `"@g.us"` for groups, else
`"@c.us"`. -/
def Jid.render (j : Jid) : String :=
  j.id ++ if j.is_group then "@g.us" else "@c.us"

/-- Model of `Jid::phonenumber` from `lib.rs`: for a non-group JID, `"+" + id`;
for a group, `None`.  (The source performs no digit check.) -/
def Jid.phonenumber (j : Jid) : Option String :=
  if !j.is_group then some ("+" ++ j.id) else none

/-- Model of `Jid::from_phonenumber` from `lib.rs`: strip one leading `'+'`
(`starts_with('+')` then `remove(0)`), then reject if any remaining
character is not a decimal digit. -/
def Jid.from_phonenumber (phonenumber : String) : Except WaError Jid :=
  let pn : List Char :=
    match phonenumber.data with
    | '+' :: rest => rest
    | l => l
  if pn.any (fun c => !c.isDigit) then
    .error (.Untyped "not a valid phonenumber")
  else
    .ok { id := ⟨pn⟩, is_group := false }

/-- Model of Rust `str::find(char)`: index of the first occurrence.
(The source uses a byte index; since the split happens exactly at the found
character, a character index yields the same decomposition.) -/
def findCharIdx (cs : List Char) (c : Char) : Option Nat :=
  match cs with
  | [] => none
  | x :: xs => if x = c then some 0 else (findCharIdx xs c).map (· + 1)

/-- Model of `impl FromStr for Jid` from `lib.rs`: split at the first `'@'`; the
suffix selects group/individual, unknown suffixes are rejected. -/
def Jid.fromStr (jid : String) : Except WaError Jid :=
  match findCharIdx jid.data '@' with
  | none => .error (.Untyped "jid missing @")
  | some at_ =>
    let id : String := ⟨jid.data.take at_⟩
    let surfix : String := ⟨jid.data.drop at_⟩
    if surfix = "@c.us" then .ok { id := id, is_group := false }
    else if surfix = "@g.us" then .ok { id := id, is_group := true }
    else if surfix = "@s.whatsapp.net" then .ok { id := id, is_group := false }
    else if surfix = "@broadcast" then .ok { id := id, is_group := false }
    else .error (.Untyped "invalid surfix")

/-- Message id, from `message.rs` (`pub struct MessageId(pub String)`). -/
structure MessageId where
  val : String
deriving DecidableEq, Repr

/-- One hexadecimal digit (`0`–`9`, `A`–`F`), uppercase, for a value
below 16. -/
def hexDigitUpper (n : Nat) : Char :=
  if n < 10 then Char.ofNat (48 + n) else Char.ofNat (55 + n)

/-- Rust `format!("\x7b:X\x7d", b)` for a byte `b < 256`: uppercase
hexadecimal **without zero padding** — a byte below `0x10` renders as a
single digit. -/
def byteHexUpper (b : Nat) : String :=
  if b < 16 then ⟨[hexDigitUpper b]⟩
  else ⟨[hexDigitUpper (b / 16), hexDigitUpper (b % 16)]⟩

/-- Model of `MessageId::generate` from `message.rs`: a 12-byte buffer whose first two
bytes are `0x3E 0xB0` and whose remaining 10 bytes are random (taken here as
the argument `randomBytes`), rendered by concatenating the unpadded
uppercase-hex rendering of each byte. -/
def MessageId.generate (randomBytes : List Nat) : MessageId :=
  ⟨String.join ((([0x3E, 0xB0] ++ randomBytes).map byteHexUpper))⟩

/-- Most-significant-first decimal digit characters of `n`, with explicit
fuel (any `fuel ≥ n` yields the digits of `n`). -/
def natReprCore : Nat → Nat → List Char
  | 0, _ => []
  | fuel + 1, n =>
    if n = 0 then []
    else natReprCore fuel (n / 10) ++ [Nat.digitChar (n % 10)]

/-- Decimal rendering of a natural number, modelling Rust's
`u32::to_string`. -/
def natRepr (n : Nat) : String :=
  if n = 0 then "0" else ⟨natReprCore n n⟩

theorem natReprCore_eq_digits : ∀ fuel n, n ≤ fuel →
    natReprCore fuel n = (Nat.digits 10 n).reverse.map Nat.digitChar := by
  intro fuel
  induction fuel with
  | zero =>
    intro n hn
    interval_cases n
    simp [natReprCore]
  | succ fuel ih =>
    intro n hn
    by_cases h0 : n = 0
    · simp [natReprCore, h0]
    · have hpos : 0 < n := Nat.pos_of_ne_zero h0
      have hdiv : n / 10 ≤ fuel := by
        have : n / 10 < n := Nat.div_lt_self hpos (by norm_num)
        omega
      rw [show natReprCore (fuel + 1) n
          = natReprCore fuel (n / 10) ++ [Nat.digitChar (n % 10)] by
            simp [natReprCore, h0],
        ih (n / 10) hdiv, Nat.digits_def' (by norm_num : (1:Nat) < 10) hpos]
      simp

theorem natRepr_eq_digits (n : Nat) :
    natRepr n
      = if n = 0 then "0"
        else ⟨(Nat.digits 10 n).reverse.map Nat.digitChar⟩ := by
  unfold natRepr
  by_cases h : n = 0
  · simp [h]
  · simp [h, natReprCore_eq_digits n n le_rfl]

theorem digitChar_inj_lt10 {a b : Nat} (ha : a < 10) (hb : b < 10)
    (h : Nat.digitChar a = Nat.digitChar b) : a = b := by
  interval_cases a <;> interval_cases b <;> simp_all [Nat.digitChar]

theorem map_digitChar_inj : ∀ (l₁ l₂ : List Nat),
    (∀ x ∈ l₁, x < 10) → (∀ x ∈ l₂, x < 10) →
    l₁.map Nat.digitChar = l₂.map Nat.digitChar → l₁ = l₂ := by
  intro l₁
  induction l₁ with
  | nil => intro l₂ _ _ h; cases l₂ <;> simp_all
  | cons a t ih =>
    intro l₂ h₁ h₂ h
    cases l₂ with
    | nil => simp at h
    | cons b t₂ =>
      simp only [List.map_cons, List.cons.injEq] at h
      have hab : a = b :=
        digitChar_inj_lt10 (h₁ a (by simp)) (h₂ b (by simp)) h.1
      have ht : t = t₂ :=
        ih t₂ (fun x hx => h₁ x (by simp [hx])) (fun x hx => h₂ x (by simp [hx])) h.2
      simp [hab, ht]

theorem natRepr_injective : Function.Injective natRepr := by
  intro a b h
  rw [natRepr_eq_digits a, natRepr_eq_digits b] at h
  have digits_bound : ∀ n, ∀ x ∈ Nat.digits 10 n, x < 10 := by
    intro n x hx
    exact Nat.digits_lt_base (by norm_num) hx
  by_cases ha : a = 0 <;> by_cases hb : b = 0
  · simp [ha, hb]
  · exfalso
    simp only [ha, if_pos rfl, if_neg hb] at h
    have hd : ['0'] = (Nat.digits 10 b).reverse.map Nat.digitChar :=
      congrArg String.data h
    have : (Nat.digits 10 b).reverse = [0] :=
      map_digitChar_inj _ [0]
        (fun x hx => digits_bound b x (List.mem_reverse.mp hx)) (by simp)
        (by simpa [Nat.digitChar] using hd.symm)
    have hdig : Nat.digits 10 b = [0] := by
      have := congrArg List.reverse this
      simpa using this
    have := Nat.ofDigits_digits 10 b
    rw [hdig] at this
    simp [Nat.ofDigits] at this
    exact hb this.symm
  · exfalso
    simp only [hb, if_neg ha, if_pos rfl] at h
    have hd : (Nat.digits 10 a).reverse.map Nat.digitChar = ['0'] :=
      congrArg String.data h
    have : (Nat.digits 10 a).reverse = [0] :=
      map_digitChar_inj _ [0]
        (fun x hx => digits_bound a x (List.mem_reverse.mp hx)) (by simp)
        (by simpa [Nat.digitChar] using hd)
    have hdig : Nat.digits 10 a = [0] := by
      have := congrArg List.reverse this
      simpa using this
    have := Nat.ofDigits_digits 10 a
    rw [hdig] at this
    simp [Nat.ofDigits] at this
    exact ha this.symm
  · simp only [if_neg ha, if_neg hb] at h
    have hd : (Nat.digits 10 a).reverse.map Nat.digitChar
        = (Nat.digits 10 b).reverse.map Nat.digitChar :=
      congrArg String.data h
    have hrev : (Nat.digits 10 a).reverse = (Nat.digits 10 b).reverse := by
      apply map_digitChar_inj _ _ _ _ hd
      · intro x hx; exact digits_bound a x (List.mem_reverse.mp hx)
      · intro x hx; exact digits_bound b x (List.mem_reverse.mp hx)
    have hdig : Nat.digits 10 a = Nat.digits 10 b := by
      have := congrArg List.reverse hrev
      simpa using this
    calc a = Nat.ofDigits 10 (Nat.digits 10 a) := (Nat.ofDigits_digits 10 a).symm
    _ = Nat.ofDigits 10 (Nat.digits 10 b) := by rw [hdig]
    _ = b := Nat.ofDigits_digits 10 b

/-- Model of `PresenceStatus` from `lib.rs`. -/
inductive PresenceStatus
  | Unavailable | Available | Typing | Recording
deriving DecidableEq, Repr

/-- Model of `GroupParticipantsChange` from `lib.rs`. -/
inductive GroupParticipantsChange
  | Add | Remove | Promote | Demote
deriving DecidableEq, Repr

/-- Model of `ChatAction` from `lib.rs` (the `i64` pin/mute timestamps as `Int`). -/
inductive ChatAction
  | Add | Remove | Archive | Unarchive | Clear
  | Pin (t : Int) | Unpin | Mute (t : Int) | Unmute | Read | Unread
deriving DecidableEq, Repr

/-- Model of `MediaType` from `lib.rs`. -/
inductive MediaType
  | Image | Video | Audio | Document
deriving DecidableEq, Repr

/-- Model of `Contact` from `lib.rs`. -/
structure Contact where
  name : Option String
  notify : Option String
  jid : Jid
deriving DecidableEq, Repr

/-- Model of `Chat` from `lib.rs`. -/
structure Chat where
  name : Option String
  jid : Jid
  last_activity : Int
  pin_time : Option Int
  mute_until : Option Int
  spam : Bool
  read_only : Bool
deriving DecidableEq, Repr

/-- Model of `GroupMetadata` from `lib.rs`. -/
structure GroupMetadata where
  creation_time : Int
  id : Jid
  owner : Option Jid
  participants : List (Jid × Bool)
  subject : String
  subject_owner : Jid
  subject_time : Int
deriving DecidableEq, Repr

/-- Model of `Peer` from `message.rs`. -/
inductive Peer
  | Individual (jid : Jid)
  | Group (group : Jid) (participant : Jid)
deriving DecidableEq, Repr

/-- Model of `PeerAck` from `message.rs`. -/
inductive PeerAck
  | Individual (jid : Jid)
  | GroupIndividual (group : Jid) (participant : Jid)
  | GroupAll (jid : Jid)
deriving DecidableEq, Repr

/-- Model of `Direction` from `message.rs`. -/
inductive Direction
  | Sending (jid : Jid)
  | Receiving (peer : Peer)
deriving DecidableEq, Repr

/-- Model of `Direction::is_sending` from `message.rs`. -/
def Direction.is_sending : Direction → Bool
  | .Sending _ => true
  | .Receiving _ => false

/-- Model of `MessageAckLevel` from `message.rs`. -/
inductive MessageAckLevel
  | PendingSend | Sent | Received | Read | Played | Error
deriving DecidableEq, Repr

/-- Model of `MessageAckSide` from `message.rs`. -/
inductive MessageAckSide
  | Here (peer : Peer)
  | There (peer : PeerAck)
deriving DecidableEq, Repr

/-- Model of `MessageAck` from `message.rs` (`NaiveDateTime` timestamps as `Int`
Unix seconds). -/
structure MessageAck where
  level : MessageAckLevel
  time : Option Int
  id : MessageId
  side : MessageAckSide
deriving DecidableEq, Repr

/-- Model of `ChatMessageContent` from `message.rs`.  The media, contact and
location variants are collapsed onto a descriptive payload: their fields
(file metadata, floating-point coordinates) are inert for every engine
operation modelled here. -/
inductive ChatMessageContent
  | Text (s : String)
  | MediaOrOther (desc : String)
  | Redaction (mid : MessageId)
  | Unimplemented (s : String)
deriving DecidableEq, Repr

/-- Model of `ChatMessage` from `message.rs` (`NaiveDateTime` as `Int`; the quoted
message and stub type collapsed onto descriptive strings — both are inert
payload for the engine). -/
structure ChatMessage where
  direction : Direction
  time : Int
  id : MessageId
  content : ChatMessageContent
  quoted : Option String
  stub_type : Option String
deriving DecidableEq, Repr

/-- Model of `PersistentSession` from `session.rs` (byte arrays as `List Nat`). -/
structure PersistentSession where
  client_token : String
  server_token : String
  client_id : List Nat
  enc : List Nat
  mac : List Nat
deriving DecidableEq, Repr

/-- Model of `SessionState` from `session.rs`.  The `ring` ephemeral private key held
by `PendingNew` is an opaque foreign handle; only its presence matters to
the engine, so it is elided here. -/
inductive SessionState
  | PendingNew (public_key : List Nat) (client_id : List Nat)
  | PendingPersistent (persistent_session : PersistentSession)
  | Established (persistent_session : PersistentSession)
deriving DecidableEq, Repr

/-- Modelled from the spec: `websocket_protocol.rs` is absent from `src/`.
`WebsocketMessageMetric` values, enumerated from their uses in `conn.rs`
and `req.rs`. -/
inductive Metric
  | Group | Received | Read | Presence | Status | Profile | Block | Chat
  | Message | QueryMessages
deriving DecidableEq, Repr

/-- Modelled from the spec: `node_protocol.rs` is absent from `src/`.
`MessageEventType`, with the variants named in the spec (`Set`, `Relay`)
and used in `conn.rs` / `req.rs` / `event.rs`. -/
inductive MessageEventType
  | Set | Relay
deriving DecidableEq, Repr

/-- Modelled from the spec: `node_protocol.rs` is absent from `src/`.
`GroupCommand`, with the constructors used in `req.rs`
(`Create(subject)`, `ParticipantsChange(jid, change)`). -/
inductive GroupCommand
  | Create (subject : String)
  | ParticipantsChange (jid : Jid) (change : GroupParticipantsChange)
deriving DecidableEq, Repr

/-- Modelled from the spec: `node_protocol.rs` is absent from `src/`.
`Query`, with the constructor used in `req.rs`. -/
inductive Query
  | MessagesBefore (jid : Jid) (id : String) (count : Nat)
deriving DecidableEq, Repr

/-- Modelled from the spec: `node_protocol.rs` is absent from `src/`.
`AppEvent`, with the constructors used in `conn.rs`, `req.rs` and
`event.rs`. -/
inductive AppEvent
  | Message (msg : ChatMessage)
  | MessageAck (ack : MessageAck)
  | ContactDelete (jid : Jid)
  | ContactAddChange (contact : Contact)
  | ChatAction (jid : Jid) (action : ChatAction)
  | Battery (level : Nat)
  | MessagePlayed (id : MessageId) (peer : Peer)
  | MessageRead (id : MessageId) (peer : Peer)
  | PresenceChange (presence : PresenceStatus) (jid : Option Jid)
  | StatusChange (status : String)
  | NotifyChange (name : String)
  | BlockProfile (unblock : Bool) (jid : Jid)
  | GroupCommand (inducer : Jid) (participants : List Jid) (id : String)
      (command : GroupCommand)
deriving DecidableEq, Repr

/-- Modelled from the spec: `node_protocol.rs` is absent from `src/`.
`AppMessage` as described in spec §3 and used throughout `src/`. -/
inductive AppMessage
  | Contacts (contacts : List Contact)
  | Chats (chats : List Chat)
  | MessagesEvents (eventType : Option MessageEventType) (events : List AppEvent)
  | Query (q : Query)
deriving DecidableEq, Repr

/-- Modelled from the spec: `node_protocol.rs` / `node_wire.rs` are absent
from `src/`.  A decoded Node tree, kept symbolic: either the serialisation
of an `AppMessage` carrying the epoch stamped into it (spec §3: the epoch
counter is "stamped into every outbound app message"), or some other node
tree. -/
inductive NodeVal
  | app (epoch : Nat) (m : AppMessage)
  | other (raw : String)
deriving DecidableEq, Repr

/-- Modelled from the spec: `AppMessage::serialize(epoch)` from
`node_protocol.rs` — lowers the app message to a node, stamping the given
epoch. -/
def AppMessage.serialize (m : AppMessage) (epoch : Nat) : NodeVal :=
  .app epoch m

/-- Modelled from the spec: `AppMessage::deserialize` from
`node_protocol.rs` — lifts a node back to an app message; fails on node
trees that are not app messages. -/
def AppMessage.deserialize (n : NodeVal) : Except WaError AppMessage :=
  match n with
  | .app _ m => .ok m
  | .other _ => .error (.NodeAttributeMissing "type")

/-- Modelled from the spec: `node_wire.rs` is absent from `src/`.  Plaintext
byte strings, kept symbolic: either the wire encoding of a node
(`Node::serialize`) or raw bytes. -/
inductive Bytes
  | node (n : NodeVal)
  | raw (data : List Nat)
deriving DecidableEq, Repr

/-- Modelled from the spec: `Node::serialize` from `node_wire.rs`. -/
def NodeVal.serializeNode (n : NodeVal) : Bytes := .node n

/-- Modelled from the spec: `Node::deserialize` from `node_wire.rs`;
decoding is strict and fails on bytes that are not a node encoding
(spec §4.3: unknown tags fail with `InvalidTag`). -/
def NodeVal.deserializeNode (b : Bytes) : Except WaError NodeVal :=
  match b with
  | .node n => .ok n
  | .raw d => .error (.InvalidTag (d.headD 0))

/-- Modelled from the spec: `crypto.rs` is absent from `src/`.  Encrypted
wire payloads, kept symbolic: either the output of
`sign_and_encrypt_message` under some key pair, or junk bytes that were
never produced by it. -/
inductive Cipher
  | enc (encKey macKey : List Nat) (plain : Bytes)
  | junk (data : List Nat)
deriving DecidableEq, Repr

/-- Modelled from the spec: `crypto::sign_and_encrypt_message` from
`crypto.rs` (spec §4.1) — AES-CBC encrypt then HMAC; infallible (its call
site in `conn.rs::send_binary_message` binds the result directly, without
`?`). -/
def sign_and_encrypt_message (enc mac : List Nat) (message : Bytes) : Cipher :=
  .enc enc mac message

/-- Modelled from the spec: `crypto::verify_and_decrypt_message` from
`crypto.rs` (spec §4.1) — verify the HMAC then decrypt; "fails with
`Crypto` on any mismatch". -/
def verify_and_decrypt_message (enc mac : List Nat) (wire : Cipher) :
    Except WaError Bytes :=
  match wire with
  | .enc e m p => if e = enc ∧ m = mac then .ok p else .error .Crypto
  | .junk _ => .error .Crypto

/-- Modelled from the spec: `crypto::sign_challenge` from `crypto.rs`
(spec §4.1: HMAC-SHA256 of the challenge under the mac key), kept
symbolic. -/
def sign_challenge (mac challenge : List Nat) : List Nat :=
  mac ++ challenge

/-- Modelled from the spec: `base64::encode`, kept symbolic as an injective
rendering of the byte string. -/
def base64encode (b : List Nat) : String :=
  String.intercalate "." (b.map natRepr)

/-- Modelled from the spec: `base64::decode` as used by
`handle_connection_ack`; fails on strings outside the image of the
encoder. -/
def base64decode (s : String) : Except WaError (List Nat) :=
  match (s.splitOn ".").mapM String.toNat? with
  | some l => .ok l
  | none => .error (.Base64 "invalid base64")

/-- Modelled from the spec: `crypto::calculate_secret_keys` from `crypto.rs`
(spec §4.1): derives the 32-byte `enc` and `mac` session keys from the
144-byte server secret (verifying its HMAC); fails on malformed input. -/
def calculate_secret_keys (secret : List Nat) :
    Except WaError (List Nat × List Nat) :=
  if secret.length = 144 then
    .ok ((secret.take 32), ((secret.drop 32).take 32))
  else
    .error .Crypto

/-- Modelled from the spec: `json_protocol.rs` is absent from `src/`.
Outbound JSON values, kept symbolic as the outputs of the request builders
called from `conn.rs` and `req.rs`. -/
inductive JsonValue
  | initRequest (client_id_b64 : String)
  | takeoverRequest (client_token server_token client_id_b64 : String)
  | challengeResponse (server_token client_id_b64 : String) (signature : List Nat)
  | fileUploadRequest (hash : List Nat) (media_type : MediaType)
  | mediaConnRequest
  | profilePictureRequest (jid : Jid)
  | profileStatusRequest (jid : Jid)
  | groupMetadataRequest (jid : Jid)
  | presenceSubscribe (jid : Jid)
deriving DecidableEq, Repr

/-- Modelled from the spec: `json_protocol.rs` is absent from `src/`.
Spontaneous server messages as deserialised by `ServerMessage::deserialize`;
constructors and fields from their uses in `conn.rs` and `event.rs`. -/
inductive ServerMessage
  | ConnectionAck (user_jid : Jid) (client_token server_token : String)
      (secret : Option String)
  | ChallengeRequest (challenge : List Nat)
  | Disconnect (kind : Option String)
  | PresenceChange (jid : Jid) (status : PresenceStatus) (time : Option Int)
  | MessageAck (message_id : String) (level : MessageAckLevel)
      (sender receiver : Jid) (participant : Option Jid) (time : Int)
  | MessageAcks (message_ids : List String) (level : MessageAckLevel)
      (sender receiver : Jid) (participant : Option Jid) (time : Int)
  | GroupIntroduce (newly_created : Bool) (inducer : Jid) (meta : GroupMetadata)
  | GroupParticipantsChange (group : Jid) (change : GroupParticipantsChange)
      (inducer : Option Jid) (participants : List Jid)
  | StatusChange (jid : Jid) (status : String)
  | PictureChange (jid : Jid) (removed : Bool)
  | GroupSubjectChange (group : Jid) (subject : String) (subject_time : Int)
      (subject_owner : Jid)
deriving DecidableEq, Repr

deriving instance DecidableEq for Except

/-- Modelled from the spec: `json_protocol.rs` is absent from `src/`.
Inbound JSON payloads, kept symbolic as the pre-parsed shapes the
`json_protocol` parsers recognise. -/
inductive JsonIn
  | initResponse (ref : String)
  | status (code : Nat)
  | ackResponse (status_code : Nat) (timestamp : Int)
  | fileUploadResponse (url : String)
  | mediaConnResponse (auth : String) (ttlMs : Int) (hosts : List String)
  | profilePictureResponse (url : Option String)
  | profileStatusResponse (status : Option String)
  | groupMetadataResponse (meta : Except WaError GroupMetadata)
  | server (m : ServerMessage)
  | other (raw : String)
deriving DecidableEq, Repr

/-- Modelled from the spec: `json_protocol::parse_init_response`. -/
def parse_init_response (p : JsonIn) : Except WaError String :=
  match p with
  | .initResponse r => .ok r
  | _ => .error (.JsonFieldMissing "ref")

/-- Modelled from the spec: `json_protocol::parse_response_status` — checks
for a `status` field equal to 200, surfacing `StatusCode(n)` otherwise
(spec §7). -/
def parse_response_status (p : JsonIn) : Except WaError Unit :=
  match p with
  | .status 200 => .ok ()
  | .status n => .error (.StatusCode n)
  | _ => .error (.JsonFieldMissing "status")

/-- Modelled from the spec: `ServerMessage::deserialize` from
`json_protocol.rs` — recognises a spontaneous server message, failing on
anything else. -/
def ServerMessage.deserialize (p : JsonIn) : Except WaError ServerMessage :=
  match p with
  | .server m => .ok m
  | _ => .error (.Json "unrecognised server message")

/-- Modelled from the spec: outbound websocket payloads
(`WebsocketMessagePayload` from `websocket_protocol.rs`) as the engine
constructs them: JSON control frames and metric-prefixed encrypted binary
frames. -/
inductive WsPayloadOut
  | Json (j : JsonValue)
  | BinaryEphemeral (metric : Metric) (cipher : Cipher)
deriving DecidableEq, Repr

/-- Model of `WebsocketMessage` (spec §3 / `websocket_protocol.rs`): a tag plus a
payload. -/
structure WebsocketMessage where
  tag : String
  payload : WsPayloadOut
deriving DecidableEq, Repr

/-- A frame handed to the websocket: either a serialised
`WebsocketMessage`, or a raw text frame (the keepalive ping `"?,,"` from
`on_ping_timer`). -/
inductive WsFrame
  | frame (m : WebsocketMessage)
  | text (s : String)
deriving DecidableEq, Repr

/-- Modelled from the spec: `WebsocketMessage::serialize` from
`websocket_protocol.rs` — renders `tag,payload`; the rendering is kept
symbolic (it is injective on messages, which is all the engine relies
on). -/
def WebsocketMessage.serialize (m : WebsocketMessage) : WsFrame :=
  .frame m

/-- Modelled from the spec: inbound websocket payloads
(`WebsocketMessagePayload` from `websocket_protocol.rs`) as classified by
the frame codec: JSON, simple binary ciphertext, metric-prefixed binary
ciphertext, empty, or pong (spec §4.2). -/
inductive WsPayloadIn
  | Json (j : JsonIn)
  | BinarySimple (cipher : Cipher)
  | BinaryEphemeral (metric : Metric) (cipher : Cipher)
  | Empty
  | Pong
deriving DecidableEq, Repr

/-- An inbound `WebsocketMessage` after deserialisation. -/
structure WsMessageIn where
  tag : String
  payload : WsPayloadIn
deriving DecidableEq, Repr

/-- Model of `WaEvent` from `event.rs` (`QrCode` as its encoded payload string,
`Uuid` as `Nat`, `NaiveDateTime` as `Int`). -/
inductive WaEvent
  | WebsocketConnected
  | ScanCode (code : String)
  | SessionEstablished (persistent : PersistentSession) (jid : Jid)
  | Message (is_new : Bool) (msg : ChatMessage)
  | InitialContacts (contacts : List Contact)
  | AddContact (contact : Contact)
  | DeleteContact (jid : Jid)
  | InitialChats (chats : List Chat)
  | ChatEvent (jid : Jid) (event : ChatAction)
  | PresenceChange (jid : Jid) (presence : PresenceStatus) (ts : Option Int)
  | MessageAck (ack : MessageAck)
  | ProfileStatus (jid : Jid) (status : String) (was_request : Bool)
  | GroupIntroduce (newly_created : Bool) (inducer : Jid) (meta : GroupMetadata)
  | GroupMetadata (meta : Except WaError GroupMetadata)
  | GroupParticipantsChange (jid : Jid) (change : GroupParticipantsChange)
      (inducer : Option Jid) (participants : List Jid)
  | GroupSubjectChange (jid : Jid) (subject : String) (ts : Int) (inducer : Jid)
  | PictureChange (jid : Jid) (removed : Bool)
  | ProfilePicture (jid : Jid) (url : Option String)
  | MessageSendFail (mid : MessageId) (status : Nat)
  | MessageHistory (uuid : Nat) (history : Except WaError (List ChatMessage))
  | FileUpload (uuid : Nat) (url : String)
  | MediaConn (uuid : Nat) (auth : String) (ttl : Int) (hosts : List String)
  | BatteryLevel (level : Nat)
deriving DecidableEq, Repr

/-- Model of `WaEvent::from_app_message` from `event.rs`: fan an app message out into
events; `Relay` marks messages as new; unreachable app events are dropped
with a warning. -/
def WaEvent.from_app_message (a : AppMessage) : List WaEvent :=
  match a with
  | .Contacts contacts => [.InitialContacts contacts]
  | .Chats chats => [.InitialChats chats]
  | .MessagesEvents event_type events =>
    events.filterMap fun event =>
      match event with
      | .Message message =>
        some (.Message (event_type = some .Relay) message)
      | .MessageAck message_ack => some (.MessageAck message_ack)
      | .ContactDelete jid => some (.DeleteContact jid)
      | .ContactAddChange contact => some (.AddContact contact)
      | .ChatAction jid action => some (.ChatEvent jid action)
      | .Battery level => some (.BatteryLevel level)
      | _ => none
  | .Query _ => []

/-- Model of `MessageAck::from_server_message` from `message.rs`. -/
def MessageAck.from_server_message (message_id : String)
    (level : MessageAckLevel) (sender receiver : Jid)
    (participant : Option Jid) (time : Int) (own_jid : Jid) : MessageAck :=
  { level := level
    time := some time
    id := ⟨message_id⟩
    side :=
      if own_jid = sender then
        .There (match participant with
          | some participant => .GroupIndividual receiver participant
          | none => .Individual receiver)
      else
        .Here (match participant with
          | some participant => .Group sender participant
          | none => .Individual sender) }

/-- Model of `WaEvent::from_server_message` from `event.rs`: fan a spontaneous
server message out into events.  Acks are dropped when the own JID is not
yet known.  The catch-all arm of the source is `panic!` (it is only
reachable for the three variants `on_server_message` routes elsewhere);
that arm is modelled as `none`. -/
def WaEvent.from_server_message (r : ServerMessage) (own_jid : Option Jid) :
    Option (List WaEvent) :=
  match r with
  | .PresenceChange jid status time =>
    some [.PresenceChange jid status
      (time.bind fun timestamp => if timestamp ≠ 0 then some timestamp else none)]
  | .MessageAck message_id level sender receiver participant time =>
    match own_jid with
    | some own_jid =>
      some [.MessageAck (MessageAck.from_server_message message_id level sender
        receiver participant time own_jid)]
    | none => some []
  | .MessageAcks message_ids level sender receiver participant time =>
    match own_jid with
    | some own_jid =>
      some (message_ids.map fun message_id =>
        .MessageAck (MessageAck.from_server_message message_id level sender
          receiver participant time own_jid))
    | none => some []
  | .GroupIntroduce newly_created inducer meta =>
    some [.GroupIntroduce newly_created inducer meta]
  | .GroupParticipantsChange group change inducer participants =>
    some [.GroupParticipantsChange group change inducer participants]
  | .StatusChange jid status => some [.ProfileStatus jid status false]
  | .PictureChange jid removed => some [.PictureChange jid removed]
  | .GroupSubjectChange group subject subject_time subject_owner =>
    some [.GroupSubjectChange group subject subject_time subject_owner]
  | _ => none

/-- Model of `CallbackType` from `conn.rs` (`Uuid` as `Nat`). -/
inductive CallbackType
  | LoginNew
  | LoginPersistent
  | CheckStatus
  | ProcessAck (mid : MessageId)
  | MessagesBefore (uuid : Nat)
  | FileUpload (uuid : Nat)
  | MediaConn (uuid : Nat)
  | ProfilePicture (jid : Jid)
  | ProfileStatus (jid : Jid)
  | GroupMetadata
  | Noop
deriving DecidableEq, Repr

/-- Outcome of one engine entry point: the successor state, an error
together with the state as mutated up to the error (Rust mutates `self` in
place, so changes made before an early `Err` return persist), or a
panic (an `unwrap()` of `None`), which unwinds and loses the engine. -/
inductive StepOut (σ : Type)
  | ok (s : σ)
  | err (s : σ) (e : WaError)
  | panicked
deriving DecidableEq, Repr

/-- Model of `std::collections::HashMap::insert`: map the key to the value,
replacing any previous mapping. -/
def cbInsert (m : List (String × CallbackType)) (k : String)
    (v : CallbackType) : List (String × CallbackType) :=
  (k, v) :: m.filter (fun p => p.1 ≠ k)

/-- Model of `HashMap::get`-style lookup. -/
def cbLookup (m : List (String × CallbackType)) (k : String) :
    Option CallbackType :=
  match m with
  | [] => none
  | (k', v) :: rest => if k' = k then some v else cbLookup rest k

/-- Model of `HashMap::remove`: drop the key's mapping. -/
def cbRemove (m : List (String × CallbackType)) (k : String) :
    List (String × CallbackType) :=
  m.filter (fun p => p.1 ≠ k)

/-- The connection engine state, from `conn.rs` (`pub struct
WebConnection`).  The websocket handle and the tokio `Interval`/`Delay`
timer handles are external resources; timer expiry is delivered to the
engine as an explicit operation, and the armed/disarmed status of the
3-second response timer is kept as a `Bool`.  `u32` counters are `Nat`,
reduced mod `2 ^ 32` on increment.  The callback `HashMap` is an
association list; `ws_outbox`/`outbox` are `VecDeque`s with the head of the
list as the front. -/
structure WebConnection where
  session_state : SessionState
  callbacks : List (String × CallbackType)
  tag_counter : Nat
  epoch : Nat
  response_timer : Bool
  ws_outbox : List WsFrame
  outbox : List WaEvent
  user_jid : Option Jid
deriving DecidableEq, Repr

namespace WebConnection

/-- Model of `WebConnection::alloc_message_tag` from `conn.rs`: render the current
counter in decimal and post-increment it. -/
def alloc_message_tag (c : WebConnection) : String × WebConnection :=
  (natRepr c.tag_counter, { c with tag_counter := (c.tag_counter + 1) % 2 ^ 32 })

/-- Model of `WebConnection::send_ws_message` from `conn.rs`: register the callback
under the message's tag and enqueue the serialised frame at the back of the
outbound queue. -/
def send_ws_message (c : WebConnection) (msg : WebsocketMessage)
    (ct : CallbackType) : WebConnection :=
  { c with
    callbacks := cbInsert c.callbacks msg.tag ct
    ws_outbox := c.ws_outbox ++ [msg.serialize] }

/-- Model of `WebConnection::increment_epoch` from `conn.rs`. -/
def increment_epoch (c : WebConnection) : WebConnection :=
  { c with epoch := (c.epoch + 1) % 2 ^ 32 }

/-- Model of `WebConnection::send_json_message` from `conn.rs`: allocate a tag and
enqueue a JSON frame. -/
def send_json_message (c : WebConnection) (message : JsonValue)
    (ct : CallbackType) : WebConnection :=
  let (tag, c) := c.alloc_message_tag
  c.send_ws_message ⟨tag, .Json message⟩ ct

/-- Model of `WebConnection::send_binary_message` from `conn.rs`: encrypt under the
established session's keys, allocating a tag when none is supplied; in any
non-`Established` state, fail with `InvalidSessionState` before touching
the tag counter, callback table or outbound queue. -/
def send_binary_message (c : WebConnection) (tag : Option String)
    (metric : Metric) (message : Bytes) (ct : CallbackType) :
    WebConnection × Option WaError :=
  match c.session_state with
  | .Established persistent_session =>
    let encrypted_message :=
      sign_and_encrypt_message persistent_session.enc persistent_session.mac
        message
    let (tag, c) :=
      match tag with
      | some t => (t, c)
      | none => c.alloc_message_tag
    (c.send_ws_message ⟨tag, .BinaryEphemeral metric encrypted_message⟩ ct,
      none)
  | _ => (c, some .InvalidSessionState)

/-- Model of `WebConnection::send_node_message` from `conn.rs`. -/
def send_node_message (c : WebConnection) (tag : Option String)
    (metric : Metric) (node : NodeVal) (ct : CallbackType) :
    WebConnection × Option WaError :=
  c.send_binary_message tag metric node.serializeNode ct

/-- Model of `WebConnection::send_app_message` from `conn.rs`: pre-increment the
epoch counter, then serialise the app message with the incremented epoch
stamped in and send it as a node message.  (The epoch increment persists
even when the send then fails.) -/
def send_app_message (c : WebConnection) (tag : Option String)
    (metric : Metric) (app_message : AppMessage) (ct : CallbackType) :
    WebConnection × Option WaError :=
  let c := { c with epoch := (c.epoch + 1) % 2 ^ 32 }
  let epoch := c.epoch
  c.send_node_message tag metric (app_message.serialize epoch) ct

/-- Model of `WebConnection::send_set_app_event` from `conn.rs`. -/
def send_set_app_event (c : WebConnection) (metric : Metric)
    (evt : AppEvent) : WebConnection × Option WaError :=
  c.send_app_message none metric (.MessagesEvents (some .Set) [evt]) .Noop

/-- Model of `WebConnection::send_group_command` from `conn.rs`: allocates a tag,
then **unwraps** `user_jid` — a panic when the engine has not yet learned
the user's own JID — and sends the group command as a `Set` app message
tagged with the allocated tag. -/
def send_group_command (c : WebConnection) (command : GroupCommand)
    (participants : List Jid) : StepOut WebConnection :=
  let (tag, c) := c.alloc_message_tag
  match c.user_jid with
  | none => .panicked
  | some inducer =>
    let app_event := AppEvent.GroupCommand inducer participants tag command
    match c.send_app_message (some tag) .Group
        (.MessagesEvents (some .Set) [app_event]) .Noop with
    | (c, none) => .ok c
    | (c, some e) => .err c e

/-- Model of `WebConnection::decrypt_binary_message` from `conn.rs`: verify and
decrypt under the established session's keys; in any non-`Established`
state, fail with `InvalidSessionState`. -/
def decrypt_binary_message (c : WebConnection) (encrypted_message : Cipher) :
    Except WaError Bytes :=
  match c.session_state with
  | .Established persistent_session =>
    verify_and_decrypt_message persistent_session.enc persistent_session.mac
      encrypted_message
  | _ => .error .InvalidSessionState

end WebConnection

/-- Modelled from the spec: `node_protocol::parse_message_response` from
`node_protocol.rs` — extracts the chat messages carried by a history
response node; fails on other node trees.  Its (possibly failed) result is
stored in the `MessageHistory` event, not propagated. -/
def parse_message_response (n : NodeVal) : Except WaError (List ChatMessage) :=
  match n with
  | .app _ (.MessagesEvents _ events) =>
    .ok (events.filterMap fun e =>
      match e with
      | .Message m => some m
      | _ => none)
  | _ => .error (.NodeAttributeMissing "messages")

namespace WebConnection

/-- Model of `WebConnection::ct_login_new` from `conn.rs`: parse the init response's
`ref`, and in `PendingNew` emit the QR payload
`ref,base64(pub),base64(client_id)`; in any other state fail with
`InvalidSessionState`.  (`QrCode::new` can fail with a `Qr` error on
oversized payloads; the QR encoding itself is out of scope and modelled as
the payload string.) -/
def ct_login_new (c : WebConnection) (p : JsonIn) :
    WebConnection × Option WaError :=
  match parse_init_response p with
  | .error e => (c, some e)
  | .ok resp =>
    match c.session_state with
    | .PendingNew public_key client_id =>
      let qrc := resp ++ "," ++ base64encode public_key ++ ","
        ++ base64encode client_id
      ({ c with outbox := c.outbox ++ [.ScanCode qrc] }, none)
    | _ => (c, some .InvalidSessionState)

/-- Model of `WebConnection::ct_login_persistent` from `conn.rs`. -/
def ct_login_persistent (c : WebConnection) (p : JsonIn) :
    WebConnection × Option WaError :=
  match parse_response_status p with
  | .error e => (c, some e)
  | .ok _ =>
    match c.session_state with
    | .PendingPersistent persistent_session =>
      (c.send_json_message
        (.takeoverRequest persistent_session.client_token
          persistent_session.server_token
          (base64encode persistent_session.client_id)) .CheckStatus, none)
    | _ => (c, some .InvalidSessionState)

/-- Model of `WebConnection::ct_check_status` from `conn.rs`. -/
def ct_check_status (c : WebConnection) (p : JsonIn) :
    WebConnection × Option WaError :=
  match parse_response_status p with
  | .error e => (c, some e)
  | .ok _ => (c, none)

/-- Model of `WebConnection::ct_process_ack` from `conn.rs`: a non-200 status yields
a non-fatal `MessageSendFail` event; a 200 status yields a `Sent`-level
`MessageAck` attributed to the own JID (`NoJidYet` when unknown). -/
def ct_process_ack (c : WebConnection) (p : JsonIn) (mid : MessageId) :
    WebConnection × Option WaError :=
  match p with
  | .ackResponse status_code timestamp =>
    if status_code ≠ 200 then
      ({ c with outbox := c.outbox ++ [.MessageSendFail mid status_code] },
        none)
    else
      match c.user_jid with
      | none => (c, some .NoJidYet)
      | some jid =>
        ({ c with outbox := c.outbox ++ [.MessageAck
          { level := .Sent, time := some timestamp, id := mid,
            side := .Here (.Individual jid) }] }, none)
  | _ => (c, some (.JsonFieldMissing "ack"))

/-- Model of `WebConnection::ct_messages_before` from `conn.rs`. -/
def ct_messages_before (c : WebConnection) (uu : Nat) (n : NodeVal) :
    WebConnection × Option WaError :=
  let resp := parse_message_response n
  ({ c with outbox := c.outbox ++ [.MessageHistory uu resp] }, none)

/-- Model of `WebConnection::ct_file_upload` from `conn.rs`. -/
def ct_file_upload (c : WebConnection) (p : JsonIn) (uuid : Nat) :
    WebConnection × Option WaError :=
  match p with
  | .fileUploadResponse url =>
    ({ c with outbox := c.outbox ++ [.FileUpload uuid url] }, none)
  | _ => (c, some (.JsonFieldMissing "url"))

/-- Model of `WebConnection::ct_media_conn` from `conn.rs`.  (The source computes
`ttl` as now + the returned milliseconds; the absolute time base is an
external input, so the offset itself is carried.) -/
def ct_media_conn (c : WebConnection) (p : JsonIn) (uuid : Nat) :
    WebConnection × Option WaError :=
  match p with
  | .mediaConnResponse auth ttlMs hosts =>
    ({ c with outbox := c.outbox ++ [.MediaConn uuid auth ttlMs hosts] },
      none)
  | _ => (c, some (.JsonFieldMissing "auth"))

/-- Model of `WebConnection::ct_profile_picture` from `conn.rs`. -/
def ct_profile_picture (c : WebConnection) (p : JsonIn) (jid : Jid) :
    WebConnection × Option WaError :=
  match p with
  | .profilePictureResponse pict =>
    ({ c with outbox := c.outbox ++ [.ProfilePicture jid pict] }, none)
  | _ => ({ c with outbox := c.outbox ++ [.ProfilePicture jid none] }, none)

/-- Model of `WebConnection::ct_profile_status` from `conn.rs`: an empty status
response is only logged. -/
def ct_profile_status (c : WebConnection) (p : JsonIn) (jid : Jid) :
    WebConnection × Option WaError :=
  match p with
  | .profileStatusResponse (some st) =>
    ({ c with outbox := c.outbox ++ [.ProfileStatus jid st true] }, none)
  | _ => (c, none)

/-- Model of `WebConnection::ct_group_metadata` from `conn.rs`. -/
def ct_group_metadata (c : WebConnection) (j : JsonIn) :
    WebConnection × Option WaError :=
  match j with
  | .groupMetadataResponse resp =>
    ({ c with outbox := c.outbox ++ [.GroupMetadata resp] }, none)
  | _ =>
    ({ c with outbox := c.outbox
      ++ [.GroupMetadata (.error (.JsonFieldMissing "meta"))] }, none)

/-- Model of `WebConnection::handle_callback_json` from `conn.rs`: dispatch an
inbound JSON payload to its consumed callback; node-only callback kinds
fail with `InvalidPayload`. -/
def handle_callback_json (c : WebConnection) (j : JsonIn)
    (ct : CallbackType) : WebConnection × Option WaError :=
  match ct with
  | .LoginNew => c.ct_login_new j
  | .LoginPersistent => c.ct_login_persistent j
  | .CheckStatus => c.ct_check_status j
  | .ProcessAck mid => c.ct_process_ack j mid
  | .FileUpload uuid => c.ct_file_upload j uuid
  | .MediaConn uuid => c.ct_media_conn j uuid
  | .ProfilePicture jid => c.ct_profile_picture j jid
  | .ProfileStatus jid => c.ct_profile_status j jid
  | .GroupMetadata => c.ct_group_metadata j
  | .Noop => (c, none)
  | x => (c, some (.InvalidPayload (reprStr x) "json"))

/-- Model of `WebConnection::handle_callback_node` from `conn.rs`. -/
def handle_callback_node (c : WebConnection) (n : NodeVal)
    (ct : CallbackType) : WebConnection × Option WaError :=
  match ct with
  | .MessagesBefore uuid => c.ct_messages_before uuid n
  | .Noop => (c, none)
  | x => (c, some (.InvalidPayload (reprStr x) "node"))

/-- Model of `WebConnection::handle_connection_ack` from `conn.rs`: in `PendingNew`,
derive the session keys from the supplied secret; in `PendingPersistent`,
retain the stored keys and refresh the tokens; either way record the user's
JID and transition to `Established`.  (The `ring` private key consumed by
`calculate_secret_keys` is elided with the key handle; see
`SessionState`.) -/
def handle_connection_ack (c : WebConnection) (user_jid : Jid)
    (client_token server_token : String) (secret : Option String) :
    WebConnection × Except WaError (PersistentSession × Jid) :=
  match c.session_state with
  | .PendingNew _ client_id =>
    match secret with
    | none => (c, .error (.JsonFieldMissing "secret"))
    | some secret =>
      match base64decode secret with
      | .error e => (c, .error e)
      | .ok secret =>
        match calculate_secret_keys secret with
        | .error e => (c, .error e)
        | .ok (enc, mac) =>
          let persistent_session : PersistentSession :=
            { client_token := client_token, server_token := server_token,
              client_id := client_id, enc := enc, mac := mac }
          ({ c with
              user_jid := some user_jid
              session_state := .Established persistent_session },
            .ok (persistent_session, user_jid))
  | .PendingPersistent persistent_session =>
    let new_persistent_session : PersistentSession :=
      { client_id := persistent_session.client_id
        enc := persistent_session.enc
        mac := persistent_session.mac
        client_token := client_token
        server_token := server_token }
    ({ c with
        user_jid := some user_jid
        session_state := .Established new_persistent_session },
      .ok (new_persistent_session, user_jid))
  | _ => (c, .error .InvalidSessionState)

/-- Model of `WebConnection::handle_server_challenge` from `conn.rs`: in
`Established` or `PendingPersistent`, sign the challenge with the stored
`mac` key and enqueue the JSON challenge response; otherwise fail with
`InvalidSessionState`. -/
def handle_server_challenge (c : WebConnection) (challenge : List Nat) :
    WebConnection × Option WaError :=
  match c.session_state with
  | .Established persistent_session =>
    let signature := sign_challenge persistent_session.mac challenge
    (c.send_json_message
      (.challengeResponse persistent_session.server_token
        (base64encode persistent_session.client_id) signature)
      .CheckStatus, none)
  | .PendingPersistent persistent_session =>
    let signature := sign_challenge persistent_session.mac challenge
    (c.send_json_message
      (.challengeResponse persistent_session.server_token
        (base64encode persistent_session.client_id) signature)
      .CheckStatus, none)
  | _ => (c, some .InvalidSessionState)

/-- Model of `WebConnection::generate_empty_ack` from `conn.rs`: synthesise a
`PendingSend`-level `MessageAck` for the given message id, attributed to
the own JID (`NoJidYet` when unknown). -/
def generate_empty_ack (c : WebConnection) (mid : String) :
    WebConnection × Option WaError :=
  match c.user_jid with
  | none => (c, some .NoJidYet)
  | some jid =>
    ({ c with outbox := c.outbox ++ [.MessageAck
      { level := .PendingSend, time := none, id := ⟨mid⟩,
        side := .Here (.Individual jid) }] }, none)

/-- Model of `WebConnection::on_server_message` from `conn.rs`: handle a spontaneous
server message — connection acks establish the session, challenges are
signed and answered, a server `Disconnect` terminates the stream with
`Disconnected(Replaced|Removed)`, everything else is lifted to events. -/
def on_server_message (c : WebConnection) (r : ServerMessage) :
    StepOut WebConnection :=
  match r with
  | .ConnectionAck user_jid client_token server_token secret =>
    match c.handle_connection_ack user_jid client_token server_token secret with
    | (c, .error e) => .err c e
    | (c, .ok (persistent, jid)) =>
      .ok { c with outbox := c.outbox ++ [.SessionEstablished persistent jid] }
  | .ChallengeRequest challenge =>
    match c.handle_server_challenge challenge with
    | (c, none) => .ok c
    | (c, some e) => .err c e
  | .Disconnect kind =>
    let reason := if kind.isSome then DisconnectReason.Replaced
      else DisconnectReason.Removed
    .err c (.Disconnected reason)
  | oth =>
    match WaEvent.from_server_message oth c.user_jid with
    | some events => .ok { c with outbox := c.outbox ++ events }
    | none => .panicked

/-- Model of `WebConnection::on_ping_timer` from `conn.rs`: push the keepalive text
frame `"?,,"` onto the **front** of the outbound queue and arm the
3-second response timer. -/
def on_ping_timer (c : WebConnection) : WebConnection :=
  { c with
    ws_outbox := .text "?,," :: c.ws_outbox
    response_timer := true }

/-- Model of `WebConnection::on_message` from `conn.rs`: demultiplex one inbound
frame (`none` models a frame `WebsocketMessage::deserialize` could not
parse, which is logged and skipped).  JSON and binary payloads are routed
to a registered callback when the tag matches (consuming it), otherwise
interpreted as spontaneous traffic; malformed or undecryptable spontaneous
frames are dropped; empty-payload frames with a tag longer than 10 bytes
synthesise a `PendingSend` ack. -/
def on_message (c : WebConnection) (m : Option WsMessageIn) :
    StepOut WebConnection :=
  match m with
  | none => .ok c
  | some message =>
    match message.payload with
    | .Json p =>
      match cbLookup c.callbacks message.tag with
      | some ct =>
        let c := { c with callbacks := cbRemove c.callbacks message.tag }
        match c.handle_callback_json p ct with
        | (c, none) => .ok c
        | (c, some e) => .err c e
      | none =>
        match ServerMessage.deserialize p with
        | .ok r => c.on_server_message r
        | .error _ => .ok c
    | .BinarySimple p =>
      match c.decrypt_binary_message p with
      | .error _ => .ok c
      | .ok dec =>
        match NodeVal.deserializeNode dec with
        | .error _ => .ok c
        | .ok payload =>
          match cbLookup c.callbacks message.tag with
          | some ct =>
            let c := { c with callbacks := cbRemove c.callbacks message.tag }
            match c.handle_callback_node payload ct with
            | (c, none) => .ok c
            | (c, some e) => .err c e
          | none =>
            match AppMessage.deserialize payload with
            | .ok p =>
              .ok { c with outbox := c.outbox ++ WaEvent.from_app_message p }
            | .error _ => .ok c
    | .Empty =>
      if message.tag.utf8ByteSize > 10 then
        match c.generate_empty_ack message.tag with
        | (c, none) => .ok c
        | (c, some e) => .err c e
      else
        .ok c
    | .Pong => .ok c
    | .BinaryEphemeral _ _ => .ok c

/-- The engine-state part of `WebConnection::setup` from `conn.rs` before
its `on_connected()` call (the websocket handle and timers are external):
fresh counters and queues, no user JID. -/
def freshState (sess : SessionState) : WebConnection :=
  { session_state := sess
    callbacks := []
    tag_counter := 0
    epoch := 0
    response_timer := false
    ws_outbox := []
    outbox := []
    user_jid := none }

/-- Model of `WebConnection::on_connected` from `conn.rs`: emit
`WebsocketConnected` and send the init request; panics when called in an
already-established state. -/
def on_connected (c : WebConnection) : StepOut WebConnection :=
  let c := { c with outbox := c.outbox ++ [WaEvent.WebsocketConnected] }
  match c.session_state with
  | .PendingNew _ client_id =>
    .ok (c.send_json_message (.initRequest (base64encode client_id)) .LoginNew)
  | .PendingPersistent persistent_session =>
    .ok (c.send_json_message
      (.initRequest (base64encode persistent_session.client_id))
      .LoginPersistent)
  | _ => .panicked

/-- Model of `WebConnection::setup` from `conn.rs`: build the fresh engine state and
run `on_connected` on it. -/
def setup (sess : SessionState) : StepOut WebConnection :=
  (freshState sess).on_connected

/-- Model of `Sink::poll_flush` from `conn.rs`, abstracting the websocket's
readiness: frames are popped from the front of `ws_outbox` and handed to
the websocket in that order (a frame refused by a pending sink is pushed
back onto the front, preserving order), until the queue is empty. -/
def poll_flush (c : WebConnection) : List WsFrame × WebConnection :=
  (c.ws_outbox, { c with ws_outbox := [] })

end WebConnection

/-- Model of `WaRequest` from `req.rs` (`Uuid` as `Nat`, `count: u16` as `Nat`). -/
inductive WaRequest
  | MessagePlayed (mid : MessageId) (peer : Peer)
  | MessageRead (mid : MessageId) (peer : Peer)
  | SetPresence (presence : PresenceStatus) (jid : Option Jid)
  | SubscribePresence (jid : Jid)
  | SetStatus (st : String)
  | SetNotifyName (st : String)
  | SetProfileBlocked (jid : Jid) (blocked : Bool)
  | ChatAction (jid : Jid) (action : ChatAction)
  | SendMessage (msg : ChatMessage)
  | CreateGroup (subject : String) (participants : List Jid)
  | ChangeGroupParticipants (jid : Jid) (change : GroupParticipantsChange)
      (participants : List Jid)
  | GetMessageHistoryBefore (jid : Jid) (mid : MessageId) (count : Nat)
      (uuid : Nat)
  | RequestFileUpload (hash : List Nat) (media_type : MediaType) (uuid : Nat)
  | RequestMediaConn (uuid : Nat)
  | GetProfilePicture (jid : Jid)
  | GetProfileStatus (jid : Jid)
  | GetGroupMetadata (jid : Jid)
deriving DecidableEq, Repr

/-- Lift a `(state, optional error)` pair into a step outcome. -/
def liftStep (r : WebConnection × Option WaError) : StepOut WebConnection :=
  match r with
  | (c, none) => .ok c
  | (c, some e) => .err c e

/-- Model of `WaRequest::apply` from `req.rs`: carry out one submitted request
against the engine. -/
def WaRequest.apply (r : WaRequest) (conn : WebConnection) :
    StepOut WebConnection :=
  match r with
  | .MessagePlayed mid peer =>
    let conn := conn.increment_epoch
    liftStep (conn.send_set_app_event .Received (.MessagePlayed mid peer))
  | .MessageRead mid peer =>
    liftStep (conn.send_set_app_event .Read (.MessageRead mid peer))
  | .SetPresence presence jid =>
    liftStep (conn.send_set_app_event .Presence (.PresenceChange presence jid))
  | .SetStatus st =>
    liftStep (conn.send_set_app_event .Status (.StatusChange st))
  | .SetNotifyName st =>
    liftStep (conn.send_set_app_event .Profile (.NotifyChange st))
  | .SetProfileBlocked jid blocked =>
    let unblock := !blocked
    liftStep (conn.send_set_app_event .Block (.BlockProfile unblock jid))
  | .ChatAction jid action =>
    liftStep (conn.send_set_app_event .Chat (.ChatAction jid action))
  | .SendMessage msg =>
    if !msg.direction.is_sending then
      .err conn .InvalidDirection
    else
      let mid := msg.id
      let amsg := AppMessage.MessagesEvents (some .Relay) [.Message msg]
      liftStep (conn.send_app_message (some mid.val) .Message amsg
        (.ProcessAck mid))
  | .CreateGroup subject participants =>
    conn.send_group_command (.Create subject) participants
  | .ChangeGroupParticipants jid change participants =>
    conn.send_group_command (.ParticipantsChange jid change) participants
  | .GetMessageHistoryBefore jid mid count uuid =>
    let msg := AppMessage.Query (.MessagesBefore jid mid.val count)
    liftStep (conn.send_app_message none .QueryMessages msg
      (.MessagesBefore uuid))
  | .RequestFileUpload hash media_type uuid =>
    .ok (conn.send_json_message (.fileUploadRequest hash media_type)
      (.FileUpload uuid))
  | .RequestMediaConn uuid =>
    .ok (conn.send_json_message .mediaConnRequest (.MediaConn uuid))
  | .GetProfilePicture jid =>
    .ok (conn.send_json_message (.profilePictureRequest jid)
      (.ProfilePicture jid))
  | .GetProfileStatus jid =>
    .ok (conn.send_json_message (.profileStatusRequest jid)
      (.ProfileStatus jid))
  | .GetGroupMetadata jid =>
    .ok (conn.send_json_message (.groupMetadataRequest jid) .GroupMetadata)
  | .SubscribePresence jid =>
    .ok (conn.send_json_message (.presenceSubscribe jid) .Noop)

/-- One scheduler-driven entry into the engine: a request submitted through
the sink (`Sink::start_send`), a tick of the 13-second ping interval, one
inbound websocket frame (`Stream::poll_next`, which disarms the response
timer before handling the frame), or a flush of the outbound queue to a
ready websocket (`Sink::poll_flush`). -/
inductive EngineOp
  | submit (r : WaRequest)
  | pingTimer
  | incoming (m : Option WsMessageIn)
  | flush
deriving DecidableEq, Repr

/-- Dispatch one engine operation against the connection state, as the
`Stream`/`Sink` impls in `conn.rs` do. -/
def stepOp (c : WebConnection) (op : EngineOp) : StepOut WebConnection :=
  match op with
  | .submit r => r.apply c
  | .pingTimer => .ok c.on_ping_timer
  | .incoming m => ({ c with response_timer := false }).on_message m
  | .flush => .ok (c.poll_flush).2

/-- The engine state an entry point leaves behind, if it did not panic. -/
def finalState (r : StepOut WebConnection) : Option WebConnection :=
  match r with
  | .ok c => some c
  | .err c _ => some c
  | .panicked => none

/-- A connection run: the engine state together with the frames already
handed to the websocket by `poll_flush`, oldest first. -/
structure EngineRun where
  conn : WebConnection
  wire : List WsFrame
deriving DecidableEq, Repr

/-- One engine operation over a run: `flush` moves the whole outbound
queue, front first, onto the wire. -/
def stepWire (s : EngineRun) (op : EngineOp) : StepOut EngineRun :=
  let w :=
    match op with
    | .flush => s.wire ++ (s.conn.poll_flush).1
    | _ => s.wire
  match stepOp s.conn op with
  | .ok c => .ok ⟨c, w⟩
  | .err c e => .err ⟨c, w⟩ e
  | .panicked => .panicked

/-- Run a sequence of engine operations; an error or panic stops the run
(the stream is poisoned / the engine unwinds). -/
def runWire (s : EngineRun) (ops : List EngineOp) : StepOut EngineRun :=
  match ops with
  | [] => .ok s
  | op :: rest =>
    match stepWire s op with
    | .ok s => runWire s rest
    | .err s e => .err s e
    | .panicked => .panicked

/-- The run state a sequence of operations ends in, if no panic occurred. -/
def finalStateW (r : StepOut EngineRun) : Option EngineRun :=
  match r with
  | .ok s => some s
  | .err s _ => some s
  | .panicked => none

/-- Total extractor for the end of a run (the start state if the run
panicked). -/
def runEnd (s : EngineRun) (ops : List EngineOp) : EngineRun :=
  match runWire s ops with
  | .ok s => s
  | .err s _ => s
  | .panicked => s

/-- The epoch stamped into a frame, when the frame is an encrypted app
message. -/
def frameEpoch (f : WsFrame) : Option Nat :=
  match f with
  | .frame m =>
    match m.payload with
    | .BinaryEphemeral _ (.enc _ _ (.node (.app e _))) => some e
    | _ => none
  | .text _ => none

/-- The epochs stamped into a frame sequence's app messages, in order. -/
def appEpochs (l : List WsFrame) : List Nat :=
  l.filterMap frameEpoch

/-- All frames of a run, delivered then pending, in wire order. -/
def allFrames (s : EngineRun) : List WsFrame :=
  s.wire ++ s.conn.ws_outbox

/-- Epoch invariant of a run: the stamped epochs are strictly increasing
in wire order and bounded by the engine's epoch counter. -/
def EpochInv (s : EngineRun) : Prop :=
  (appEpochs (allFrames s)).Chain' (· < ·) ∧
  ∀ e ∈ appEpochs (allFrames s), e ≤ s.conn.epoch

/-- Whether a frame is a serialised request frame (as opposed to the raw
keepalive ping text). -/
def isReqFrame (f : WsFrame) : Bool :=
  match f with
  | .frame _ => true
  | .text _ => false

/-- The request frames of a frame sequence, in order. -/
def reqFrames (l : List WsFrame) : List WsFrame :=
  l.filter isReqFrame

/-- The request frames one operation appends to the back of the outbound
queue (submissions and inbound-triggered responses append at the back; the
ping timer prepends its text frame and a flush appends nothing). -/
def opNewReqFrames (s : EngineRun) (op : EngineOp) : List WsFrame :=
  match op with
  | .pingTimer => []
  | .flush => []
  | _ =>
    match finalState (stepOp s.conn op) with
    | some c => reqFrames (c.ws_outbox.drop s.conn.ws_outbox.length)
    | none => []

/-- The request frames appended over a run, in operation order. -/
def runReqFrames (s : EngineRun) (ops : List EngineOp) : List WsFrame :=
  match ops with
  | [] => []
  | op :: rest =>
    match stepWire s op with
    | .ok s' => opNewReqFrames s op ++ runReqFrames s' rest
    | .err _ _ => opNewReqFrames s op
    | .panicked => []

/-- Iterate `alloc_message_tag`, collecting the allocated tags in order. -/
def allocRun (c : WebConnection) : Nat → List String × WebConnection
  | 0 => ([], c)
  | k + 1 =>
    let (t, c) := c.alloc_message_tag
    let (ts, c) := allocRun c k
    (t :: ts, c)

/-- Tag ordering: distinct, and decimal renderings of increasing
numbers. -/
def TagLt (s t : String) : Prop :=
  s ≠ t ∧ ∃ a b : Nat, s = natRepr a ∧ t = natRepr b ∧ a < b

/-- A sample persistent session, for concrete verification instances. -/
def samplePersistent : PersistentSession :=
  { client_token := "ct", server_token := "st", client_id := [1, 2],
    enc := [3], mac := [4] }

/-- A sample established connection with one registered callback. -/
def sampleEstablished : WebConnection :=
  { session_state := .Established samplePersistent
    callbacks := [("5", .Noop)]
    tag_counter := 6
    epoch := 0
    response_timer := false
    ws_outbox := []
    outbox := []
    user_jid := some ⟨"4477", false⟩ }

/-! ## Claim theorems -/

/-- C7: `MessageId::generate` renders each byte with Rust's unpadded
`:X` format, so whenever a random byte is below `0x10` the id is
**shorter than 24 characters**: with all ten random bytes zero the id is
`"3EB00000000000"` — 14 characters, not the 24 the spec states — though it
does still start with `3EB0`.  This contradicts the spec's stated
`MessageId` format (and the evident intent of a fixed-width hex id); the
missing zero padding is a slip in the code. -/
theorem messageId_generate_zero_bytes_not_24_chars :
    (MessageId.generate (List.replicate 10 0)).val = "3EB00000000000" ∧
    (MessageId.generate (List.replicate 10 0)).val.length = 14 ∧
    ((MessageId.generate (List.replicate 10 0)).val.length = 24 → False) := by
  refine ⟨rfl, rfl, ?_⟩
  intro h
  simp [MessageId.generate, byteHexUpper, hexDigitUpper, String.join,
    String.length] at h

/-- C9 counterexample: `Jid::phonenumber` performs no digit check — for the
non-group JID with id `"abc"` (not all decimal digits) it returns
`some "+abc"`, where the claim requires `none`. -/
theorem phonenumber_nondigit_counterexample :
    ("abc".data.any fun c => !c.isDigit) = true ∧
    Jid.phonenumber ⟨"abc", false⟩ = some "+abc" := by
  constructor
  · decide
  · rfl

/-- C9 (amended): `Jid::phonenumber` returns `some ("+" ++ id)` exactly
when the JID is not a group, regardless of the id's characters; for a
group it returns `none`. -/
theorem phonenumber_defined_iff_not_group (j : Jid) :
    j.phonenumber = if j.is_group then none else some ("+" ++ j.id) := by
  cases j with
  | mk id g => cases g <;> simp [Jid.phonenumber]

/-- C10: submitting `CreateGroup` or `ChangeGroupParticipants` before the
engine has learned the user's own JID panics — `send_group_command`
unwraps `user_jid` — instead of returning an error value. -/
theorem group_command_before_jid_panics (c : WebConnection)
    (h : c.user_jid = none) :
    (∀ subject participants,
      WaRequest.apply (.CreateGroup subject participants) c = .panicked) ∧
    (∀ jid change participants,
      WaRequest.apply (.ChangeGroupParticipants jid change participants) c
        = .panicked) := by
  constructor <;>
    · intros
      simp [WaRequest.apply, WebConnection.send_group_command,
        WebConnection.alloc_message_tag, h]

/-- C10 witness: a concrete fresh pending connection panics on a group
creation request. -/
theorem group_command_before_jid_panics_witness :
    WaRequest.apply (.CreateGroup "grp" [])
      (WebConnection.freshState (.PendingNew [] [])) = .panicked :=
  (group_command_before_jid_panics _ rfl).1 "grp" []

theorem findCharIdx_append_cons (xs ys : List Char) (c : Char)
    (h : c ∉ xs) : findCharIdx (xs ++ c :: ys) c = some xs.length := by
  induction xs with
  | nil => simp [findCharIdx]
  | cons x t ih =>
    simp only [List.mem_cons, not_or] at h
    have hx : ¬ x = c := fun hh => h.1 hh.symm
    simp [findCharIdx, hx, ih h.2]

/-- C8 counterexample: the rendered form of the (non-group) JID whose id
contains an `'@'` does not parse back — `from_str` splits at the *first*
`'@'`, leaving an unrecognised suffix — so `parse(format(jid)) == jid`
fails for it. -/
theorem jid_roundtrip_at_counterexample :
    Jid.fromStr (Jid.render ⟨"a@b", false⟩)
      = .error (.Untyped "invalid surfix") ∧
    Jid.fromStr (Jid.render ⟨"a@b", false⟩) ≠ .ok ⟨"a@b", false⟩ := by
  constructor
  · rfl
  · intro h
    rw [show Jid.fromStr (Jid.render ⟨"a@b", false⟩)
      = .error (.Untyped "invalid surfix") from rfl] at h
    cases h

/-- C8 (amended): for every JID whose id contains no `'@'` (both group and
individual), parsing the rendered form yields the JID back; and
`from_phonenumber` rejects any input that, after an optional leading `'+'`,
contains a non-decimal-digit character. -/
theorem jid_parse_render_roundtrip :
    (∀ j : Jid, '@' ∉ j.id.data → Jid.fromStr (Jid.render j) = .ok j) ∧
    (∀ s : String,
      ((match s.data with
        | '+' :: rest => rest
        | l => l).any fun ch => !ch.isDigit) = true →
      Jid.from_phonenumber s = .error (.Untyped "not a valid phonenumber")) := by
  constructor
  · rintro ⟨id, g⟩ h
    simp only at h
    cases g with
    | false =>
      have hr : Jid.render ⟨id, false⟩ = id ++ "@c.us" := by
        simp [Jid.render]
      rw [hr]
      unfold Jid.fromStr
      have hd : (id ++ "@c.us").data = id.data ++ '@' :: "c.us".data := by
        rw [String.data_append]
      rw [hd, findCharIdx_append_cons _ _ _ h]
      simp [List.take_left, List.drop_left]
    | true =>
      have hr : Jid.render ⟨id, true⟩ = id ++ "@g.us" := by
        simp [Jid.render]
      rw [hr]
      unfold Jid.fromStr
      have hd : (id ++ "@g.us").data = id.data ++ '@' :: "g.us".data := by
        rw [String.data_append]
      rw [hd, findCharIdx_append_cons _ _ _ h]
      simp [List.take_left, List.drop_left]
  · intro s h
    simp only [Jid.from_phonenumber, h, if_pos]

/-- C8 witness: the roundtrip at a concrete group JID, and the rejection of
a concrete phone number containing a letter. -/
theorem jid_parse_render_roundtrip_witness :
    Jid.fromStr (Jid.render ⟨"447-group", true⟩) = .ok ⟨"447-group", true⟩ ∧
    Jid.from_phonenumber "+44a7"
      = .error (.Untyped "not a valid phonenumber") :=
  ⟨jid_parse_render_roundtrip.1 ⟨"447-group", true⟩ (by decide),
    jid_parse_render_roundtrip.2 "+44a7" (by decide)⟩

/-- C1: in any non-`Established` state, `send_binary_message` fails with
`InvalidSessionState` leaving the engine untouched (no tag allocated, no
callback registered, no frame enqueued) and `decrypt_binary_message` fails
with `InvalidSessionState` (nothing decrypted); in the `Established` state,
neither operation can fail with `InvalidSessionState`. -/
theorem binary_requires_established (c : WebConnection) :
    ((∀ ps, c.session_state ≠ .Established ps) →
      (∀ tag metric message ct,
        c.send_binary_message tag metric message ct
          = (c, some .InvalidSessionState)) ∧
      (∀ em, c.decrypt_binary_message em = .error .InvalidSessionState)) ∧
    (∀ ps, c.session_state = .Established ps →
      (∀ tag metric message ct,
        (c.send_binary_message tag metric message ct).2
          ≠ some .InvalidSessionState) ∧
      (∀ em, c.decrypt_binary_message em ≠ .error .InvalidSessionState)) := by
  constructor
  · intro h
    constructor
    · intro tag metric message ct
      cases hs : c.session_state with
      | Established ps => exact absurd hs (h ps)
      | PendingNew pk cid =>
        simp [WebConnection.send_binary_message, hs]
      | PendingPersistent ps =>
        simp [WebConnection.send_binary_message, hs]
    · intro em
      cases hs : c.session_state with
      | Established ps => exact absurd hs (h ps)
      | PendingNew pk cid =>
        simp [WebConnection.decrypt_binary_message, hs]
      | PendingPersistent ps =>
        simp [WebConnection.decrypt_binary_message, hs]
  · intro ps hs
    constructor
    · intro tag metric message ct
      cases tag <;>
        simp [WebConnection.send_binary_message, hs,
          WebConnection.alloc_message_tag]
    · intro em
      cases em with
      | junk d =>
        simp [WebConnection.decrypt_binary_message, hs,
          verify_and_decrypt_message]
      | enc e m p =>
        simp only [WebConnection.decrypt_binary_message, hs,
          verify_and_decrypt_message]
        split <;> simp

/-- C1 witness: a concrete pending connection rejects an outbound binary
message with `InvalidSessionState`, and a concrete established connection
decrypting junk does not fail with `InvalidSessionState`. -/
theorem binary_requires_established_witness :
    WebConnection.send_binary_message
      (WebConnection.freshState (.PendingNew [] [])) none .Message (.raw [])
      .Noop
      = (WebConnection.freshState (.PendingNew [] []),
        some .InvalidSessionState) ∧
    WebConnection.decrypt_binary_message sampleEstablished (.junk [])
      ≠ .error .InvalidSessionState :=
  ⟨((binary_requires_established _).1
      (by intro ps h; simp [WebConnection.freshState] at h)).1
      none .Message (.raw []) .Noop,
    ((binary_requires_established _).2 samplePersistent rfl).2 (.junk [])⟩

/-- C6 counterexample: before the engine has learned the user's JID, an
inbound Empty frame with an 11-byte tag does **not** produce a
`MessageAck` event — `generate_empty_ack` fails with `NoJidYet` (a fatal
callback-path error) and the outbox stays empty. -/
theorem empty_frame_no_jid_counterexample :
    WebConnection.on_message (WebConnection.freshState (.PendingNew [] []))
        (some ⟨"12345678901", .Empty⟩)
      = .err (WebConnection.freshState (.PendingNew [] [])) .NoJidYet ∧
    (WebConnection.freshState (.PendingNew [] [])).outbox = [] := by
  constructor <;> rfl

/-- C6 (amended): for an inbound Empty frame — once the engine knows the
user's JID, a tag longer than 10 UTF-8 bytes yields exactly one
`MessageAck` event of level `PendingSend` whose message id is the tag,
attributed to the user; a tag of at most 10 bytes yields no event; with the
user's JID unknown, a long tag fails with `NoJidYet` and yields no
event. -/
theorem empty_frame_ack_heuristic (c : WebConnection) (tag : String) :
    (∀ jid, c.user_jid = some jid → tag.utf8ByteSize > 10 →
      c.on_message (some ⟨tag, .Empty⟩)
        = .ok { c with outbox := c.outbox ++ [.MessageAck
            { level := .PendingSend, time := none, id := ⟨tag⟩,
              side := .Here (.Individual jid) }] }) ∧
    (tag.utf8ByteSize ≤ 10 →
      c.on_message (some ⟨tag, .Empty⟩) = .ok c) ∧
    (c.user_jid = none → tag.utf8ByteSize > 10 →
      c.on_message (some ⟨tag, .Empty⟩) = .err c .NoJidYet) := by
  refine ⟨?_, ?_, ?_⟩
  · intro jid hj hlen
    simp [WebConnection.on_message, WebConnection.generate_empty_ack, hj, hlen]
  · intro hlen
    simp [WebConnection.on_message, Nat.not_lt.mpr hlen]
  · intro hj hlen
    simp [WebConnection.on_message, WebConnection.generate_empty_ack, hj, hlen]

/-- C6 witness: the three behaviours at concrete engine states and tags. -/
theorem empty_frame_ack_heuristic_witness :
    (sampleEstablished.on_message (some ⟨"12345678901", .Empty⟩)
      = .ok { sampleEstablished with outbox := [.MessageAck
          { level := .PendingSend, time := none, id := ⟨"12345678901"⟩,
            side := .Here (.Individual ⟨"4477", false⟩) }] }) ∧
    (sampleEstablished.on_message (some ⟨"123", .Empty⟩)
      = .ok sampleEstablished) ∧
    (WebConnection.on_message (WebConnection.freshState (.PendingNew [] []))
        (some ⟨"98765432109", .Empty⟩)
      = .err (WebConnection.freshState (.PendingNew [] [])) .NoJidYet) :=
  ⟨(empty_frame_ack_heuristic sampleEstablished "12345678901").1
      ⟨"4477", false⟩ rfl (by decide),
    (empty_frame_ack_heuristic sampleEstablished "123").2.1 (by decide),
    (empty_frame_ack_heuristic _ "98765432109").2.2 rfl (by decide)⟩

/-- C5 counterexample: an inbound `BinaryEphemeral` frame is **ignored**,
not decrypted and dispatched: on an established connection holding a
registered callback for tag `"5"`, a `BinaryEphemeral` frame with tag `"5"`
and a ciphertext valid under the session keys leaves the engine completely
unchanged — the callback is not consumed and no event is emitted — where
the claim requires verification, decryption and callback dispatch. -/
theorem binary_ephemeral_ignored_counterexample :
    sampleEstablished.on_message (some ⟨"5", .BinaryEphemeral .Message
        (sign_and_encrypt_message samplePersistent.enc samplePersistent.mac
          (.node (.app 1 (.Chats []))))⟩)
      = .ok sampleEstablished ∧
    cbLookup sampleEstablished.callbacks "5" = some .Noop := by
  constructor <;> rfl

/-- C5 (amended): for every inbound frame whose payload is classified
`BinarySimple`, the engine requires the `Established` state, verifies and
decrypts the ciphertext, deserialises the result as a Node, and either
passes it to the matching registered callback (consuming it) or
deserialises it as an `AppMessage` and emits the resulting events — every
failure along that pipeline (failed decryption, in any state, in
particular any non-`Established` state; a plaintext that is not a node
encoding; a node that is not an app message, with no registered callback)
drops the frame with the engine unchanged —, while an inbound
`BinaryEphemeral` frame is only logged and ignored, without decryption or
callback dispatch. -/
theorem binary_simple_pipeline (c : WebConnection) (t : String) :
    (∀ metric cipher,
      c.on_message (some ⟨t, .BinaryEphemeral metric cipher⟩) = .ok c) ∧
    ((∀ ps, c.session_state ≠ .Established ps) → ∀ cipher,
      c.on_message (some ⟨t, .BinarySimple cipher⟩) = .ok c) ∧
    (∀ cipher e, c.decrypt_binary_message cipher = .error e →
      c.on_message (some ⟨t, .BinarySimple cipher⟩) = .ok c) ∧
    (∀ ps d, c.session_state = .Established ps →
      c.on_message (some ⟨t, .BinarySimple
          (sign_and_encrypt_message ps.enc ps.mac (.raw d))⟩) = .ok c) ∧
    (∀ ps n ct, c.session_state = .Established ps →
      cbLookup c.callbacks t = some ct →
      c.on_message (some ⟨t, .BinarySimple
          (sign_and_encrypt_message ps.enc ps.mac (.node n))⟩)
        = liftStep (WebConnection.handle_callback_node
            { c with callbacks := cbRemove c.callbacks t } n ct)) ∧
    (∀ ps e am, c.session_state = .Established ps →
      cbLookup c.callbacks t = none →
      c.on_message (some ⟨t, .BinarySimple
          (sign_and_encrypt_message ps.enc ps.mac (.node (.app e am)))⟩)
        = .ok { c with outbox := c.outbox ++ WaEvent.from_app_message am }) ∧
    (∀ ps r, c.session_state = .Established ps →
      cbLookup c.callbacks t = none →
      c.on_message (some ⟨t, .BinarySimple
          (sign_and_encrypt_message ps.enc ps.mac (.node (.other r)))⟩)
        = .ok c) := by
  refine ⟨?_, ?_, ?_, ?_, ?_, ?_, ?_⟩
  · intro metric cipher
    rfl
  · intro h cipher
    cases hs : c.session_state with
    | Established ps => exact absurd hs (h ps)
    | PendingNew pk cid =>
      simp [WebConnection.on_message, WebConnection.decrypt_binary_message, hs]
    | PendingPersistent ps =>
      simp [WebConnection.on_message, WebConnection.decrypt_binary_message, hs]
  · intro cipher e hdec
    simp [WebConnection.on_message, hdec]
  · intro ps d hs
    simp [WebConnection.on_message, WebConnection.decrypt_binary_message,
      hs, verify_and_decrypt_message, sign_and_encrypt_message,
      NodeVal.deserializeNode]
  · intro ps n ct hs hcb
    simp only [WebConnection.on_message, WebConnection.decrypt_binary_message,
      hs, verify_and_decrypt_message, sign_and_encrypt_message, and_self,
      if_pos, NodeVal.deserializeNode, hcb]
    rcases hh : WebConnection.handle_callback_node
        { c with callbacks := cbRemove c.callbacks t } n ct with ⟨c₂, e⟩
    cases e <;> simp [hh, liftStep]
  · intro ps e am hs hcb
    simp [WebConnection.on_message, WebConnection.decrypt_binary_message,
      hs, verify_and_decrypt_message, sign_and_encrypt_message,
      NodeVal.deserializeNode, hcb, AppMessage.deserialize]
  · intro ps r hs hcb
    simp [WebConnection.on_message, WebConnection.decrypt_binary_message,
      hs, verify_and_decrypt_message, sign_and_encrypt_message,
      NodeVal.deserializeNode, hcb, AppMessage.deserialize]

/-- C5 witness: the seven behaviours at concrete engine states. -/
theorem binary_simple_pipeline_witness :
    (sampleEstablished.on_message
        (some ⟨"9", .BinaryEphemeral .Message (.junk [1])⟩)
      = .ok sampleEstablished) ∧
    (WebConnection.on_message (WebConnection.freshState (.PendingNew [] []))
        (some ⟨"9", .BinarySimple (.junk [1])⟩)
      = .ok (WebConnection.freshState (.PendingNew [] []))) ∧
    (sampleEstablished.on_message (some ⟨"9", .BinarySimple (.junk [1])⟩)
      = .ok sampleEstablished) ∧
    (sampleEstablished.on_message (some ⟨"9", .BinarySimple
        (sign_and_encrypt_message samplePersistent.enc samplePersistent.mac
          (.raw [9]))⟩)
      = .ok sampleEstablished) ∧
    (sampleEstablished.on_message (some ⟨"5", .BinarySimple
        (sign_and_encrypt_message samplePersistent.enc samplePersistent.mac
          (.node (.other "n")))⟩)
      = liftStep (WebConnection.handle_callback_node
          { sampleEstablished with
            callbacks := cbRemove sampleEstablished.callbacks "5" }
          (.other "n") .Noop)) ∧
    (sampleEstablished.on_message (some ⟨"7", .BinarySimple
        (sign_and_encrypt_message samplePersistent.enc samplePersistent.mac
          (.node (.app 3 (.Chats []))))⟩)
      = .ok { sampleEstablished with
          outbox := WaEvent.from_app_message (.Chats []) }) ∧
    (sampleEstablished.on_message (some ⟨"7", .BinarySimple
        (sign_and_encrypt_message samplePersistent.enc samplePersistent.mac
          (.node (.other "x")))⟩)
      = .ok sampleEstablished) :=
  ⟨(binary_simple_pipeline sampleEstablished "9").1 .Message (.junk [1]),
    (binary_simple_pipeline _ "9").2.1
      (by intro ps h; simp [WebConnection.freshState] at h) (.junk [1]),
    (binary_simple_pipeline sampleEstablished "9").2.2.1 (.junk [1])
      .Crypto rfl,
    (binary_simple_pipeline sampleEstablished "9").2.2.2.1 samplePersistent
      [9] rfl,
    (binary_simple_pipeline sampleEstablished "5").2.2.2.2.1
      samplePersistent (.other "n") .Noop rfl rfl,
    (binary_simple_pipeline sampleEstablished "7").2.2.2.2.2.1
      samplePersistent 3 (.Chats []) rfl rfl,
    (binary_simple_pipeline sampleEstablished "7").2.2.2.2.2.2
      samplePersistent "x" rfl rfl⟩

theorem allocRun_eq_map (k : Nat) : ∀ c : WebConnection,
    c.tag_counter + k ≤ 2 ^ 32 →
    (allocRun c k).1
      = (List.range k).map (fun i => natRepr (c.tag_counter + i)) := by
  induction k with
  | zero => intro c _; simp [allocRun]
  | succ k ih =>
    intro c hc
    have hstep : (allocRun c (k + 1)).1
        = natRepr c.tag_counter
          :: (allocRun { c with tag_counter := (c.tag_counter + 1) % 2 ^ 32 }
              k).1 := rfl
    rw [hstep, List.range_succ_eq_map, List.map_cons, List.map_map]
    cases k with
    | zero => simp [allocRun]
    | succ j =>
      have h1 : c.tag_counter + 1 < 2 ^ 32 := by omega
      have hmod : (c.tag_counter + 1) % 2 ^ 32 = c.tag_counter + 1 :=
        Nat.mod_eq_of_lt h1
      rw [ih { c with tag_counter := (c.tag_counter + 1) % 2 ^ 32 }
        (by simp only [hmod]; omega)]
      simp only [hmod, List.cons.injEq, List.map_inj_left,
        Function.comp_apply, true_and]
      exact ⟨by rw [Nat.add_zero], fun a _ => by congr 1; omega⟩

/-- C2: every run of the engine's tag allocator (within the `u32` range of
the counter) yields pairwise-distinct tags that are the decimal renderings
of strictly increasing integers — the counter value, incremented by one per
allocation. -/
theorem alloc_tags_strictly_increasing (c : WebConnection) (k : Nat)
    (hk : c.tag_counter + k ≤ 2 ^ 32) :
    ((allocRun c k).1).Pairwise TagLt := by
  rw [allocRun_eq_map k c hk]
  apply List.Pairwise.map _ _ (List.pairwise_lt_range k)
  intro a b hab
  refine ⟨fun hEq => ?_, c.tag_counter + a, c.tag_counter + b, rfl, rfl,
    by omega⟩
  have := natRepr_injective hEq
  omega

/-- C2 witness: the first three tags of a fresh connection are pairwise
increasing decimal tags. -/
theorem alloc_tags_strictly_increasing_witness :
    ((allocRun (WebConnection.freshState (.PendingNew [] [])) 3).1).Pairwise
      TagLt :=
  alloc_tags_strictly_increasing _ 3 (by norm_num [WebConnection.freshState])

theorem appEpochs_append (a b : List WsFrame) :
    appEpochs (a ++ b) = appEpochs a ++ appEpochs b := by
  simp [appEpochs]

theorem reqFrames_append (a b : List WsFrame) :
    reqFrames (a ++ b) = reqFrames a ++ reqFrames b := by
  simp [reqFrames]

theorem finalState_liftStep (p : WebConnection × Option WaError) :
    finalState (liftStep p) = some p.1 := by
  rcases p with ⟨c, _ | e⟩ <;> rfl

/-- An engine step that leaves the epoch counter alone and only appends
epoch-free (JSON) frames to the outbound queue. -/
def Quiet (c c' : WebConnection) : Prop :=
  c'.epoch = c.epoch ∧
  ∃ new, c'.ws_outbox = c.ws_outbox ++ new ∧ appEpochs new = []

theorem Quiet.refl (c : WebConnection) : Quiet c c :=
  ⟨rfl, [], by simp, rfl⟩

theorem Quiet.trans {c c' c'' : WebConnection} (h1 : Quiet c c')
    (h2 : Quiet c' c'') : Quiet c c'' := by
  obtain ⟨he1, n1, hw1, ha1⟩ := h1
  obtain ⟨he2, n2, hw2, ha2⟩ := h2
  exact ⟨he2.trans he1, n1 ++ n2,
    by rw [hw2, hw1, List.append_assoc],
    by rw [appEpochs_append, ha1, ha2]; rfl⟩

theorem quiet_send_json (c : WebConnection) (j : JsonValue)
    (ct : CallbackType) : Quiet c (c.send_json_message j ct) :=
  ⟨rfl, [.frame ⟨natRepr c.tag_counter, .Json j⟩], rfl, rfl⟩

theorem quiet_ct_login_new (c : WebConnection) (p : JsonIn) :
    Quiet c ((c.ct_login_new p).1) := by
  unfold WebConnection.ct_login_new
  rcases parse_init_response p with e | resp
  · exact Quiet.refl c
  · cases c.session_state <;> first
      | exact Quiet.refl c
      | exact ⟨rfl, [], by simp, rfl⟩

theorem quiet_ct_login_persistent (c : WebConnection) (p : JsonIn) :
    Quiet c ((c.ct_login_persistent p).1) := by
  unfold WebConnection.ct_login_persistent
  rcases parse_response_status p with e | u
  · exact Quiet.refl c
  · cases c.session_state <;> first
      | exact Quiet.refl c
      | exact quiet_send_json ..

theorem quiet_ct_check_status (c : WebConnection) (p : JsonIn) :
    Quiet c ((c.ct_check_status p).1) := by
  unfold WebConnection.ct_check_status
  rcases parse_response_status p with e | u <;> exact Quiet.refl c

theorem quiet_ct_process_ack (c : WebConnection) (p : JsonIn)
    (mid : MessageId) : Quiet c ((c.ct_process_ack p mid).1) := by
  unfold WebConnection.ct_process_ack
  repeat' split
  all_goals first
    | exact Quiet.refl c
    | exact ⟨rfl, [], by simp, rfl⟩

theorem quiet_ct_messages_before (c : WebConnection) (uu : Nat)
    (n : NodeVal) : Quiet c ((c.ct_messages_before uu n).1) := by
  unfold WebConnection.ct_messages_before
  exact ⟨rfl, [], by simp, rfl⟩

theorem quiet_ct_file_upload (c : WebConnection) (p : JsonIn) (uuid : Nat) :
    Quiet c ((c.ct_file_upload p uuid).1) := by
  unfold WebConnection.ct_file_upload
  cases p <;> first
    | exact Quiet.refl c
    | exact ⟨rfl, [], by simp, rfl⟩

theorem quiet_ct_media_conn (c : WebConnection) (p : JsonIn) (uuid : Nat) :
    Quiet c ((c.ct_media_conn p uuid).1) := by
  unfold WebConnection.ct_media_conn
  cases p <;> first
    | exact Quiet.refl c
    | exact ⟨rfl, [], by simp, rfl⟩

theorem quiet_ct_profile_picture (c : WebConnection) (p : JsonIn)
    (jid : Jid) : Quiet c ((c.ct_profile_picture p jid).1) := by
  unfold WebConnection.ct_profile_picture
  cases p <;> exact ⟨rfl, [], by simp, rfl⟩

theorem quiet_ct_profile_status (c : WebConnection) (p : JsonIn)
    (jid : Jid) : Quiet c ((c.ct_profile_status p jid).1) := by
  unfold WebConnection.ct_profile_status
  cases p <;> try exact Quiet.refl c
  case profileStatusResponse st =>
    cases st
    · exact Quiet.refl c
    · exact ⟨rfl, [], by simp, rfl⟩

theorem quiet_ct_group_metadata (c : WebConnection) (j : JsonIn) :
    Quiet c ((c.ct_group_metadata j).1) := by
  unfold WebConnection.ct_group_metadata
  cases j <;> exact ⟨rfl, [], by simp, rfl⟩

theorem quiet_handle_callback_json (c : WebConnection) (j : JsonIn)
    (ct : CallbackType) : Quiet c ((c.handle_callback_json j ct).1) := by
  unfold WebConnection.handle_callback_json
  cases ct
  · exact quiet_ct_login_new c j
  · exact quiet_ct_login_persistent c j
  · exact quiet_ct_check_status c j
  · exact quiet_ct_process_ack ..
  · exact Quiet.refl c
  · exact quiet_ct_file_upload ..
  · exact quiet_ct_media_conn ..
  · exact quiet_ct_profile_picture ..
  · exact quiet_ct_profile_status ..
  · exact quiet_ct_group_metadata ..
  · exact Quiet.refl c

theorem quiet_handle_callback_node (c : WebConnection) (n : NodeVal)
    (ct : CallbackType) : Quiet c ((c.handle_callback_node n ct).1) := by
  unfold WebConnection.handle_callback_node
  cases ct <;> first
    | exact Quiet.refl c
    | exact quiet_ct_messages_before ..

theorem quiet_generate_empty_ack (c : WebConnection) (mid : String) :
    Quiet c ((c.generate_empty_ack mid).1) := by
  unfold WebConnection.generate_empty_ack
  cases c.user_jid
  · exact Quiet.refl c
  · exact ⟨rfl, [], by simp, rfl⟩

theorem quiet_handle_connection_ack (c : WebConnection) (user_jid : Jid)
    (client_token server_token : String) (secret : Option String) :
    Quiet c ((c.handle_connection_ack user_jid client_token server_token
      secret).1) := by
  unfold WebConnection.handle_connection_ack
  repeat' split
  all_goals first
    | exact Quiet.refl c
    | exact ⟨rfl, [], by simp, rfl⟩

theorem quiet_handle_server_challenge (c : WebConnection)
    (challenge : List Nat) :
    Quiet c ((c.handle_server_challenge challenge).1) := by
  unfold WebConnection.handle_server_challenge
  cases c.session_state <;> first
    | exact Quiet.refl c
    | exact quiet_send_json ..

theorem quiet_on_server_message (c : WebConnection) (r : ServerMessage)
    (c' : WebConnection) (h : finalState (c.on_server_message r) = some c') :
    Quiet c c' := by
  cases r with
  | ConnectionAck user_jid client_token server_token secret =>
    simp only [WebConnection.on_server_message] at h
    split at h
    next c₂ e heq =>
      simp only [finalState, Option.some.injEq] at h
      subst h
      have hq := quiet_handle_connection_ack c user_jid client_token
        server_token secret
      rw [heq] at hq
      exact hq
    next c₂ persistent jid heq =>
      simp only [finalState, Option.some.injEq] at h
      subst h
      have hq := quiet_handle_connection_ack c user_jid client_token
        server_token secret
      rw [heq] at hq
      exact hq.trans ⟨rfl, [], by simp, rfl⟩
  | ChallengeRequest challenge =>
    simp only [WebConnection.on_server_message] at h
    split at h
    next c₂ heq =>
      simp only [finalState, Option.some.injEq] at h
      subst h
      have hq := quiet_handle_server_challenge c challenge
      rw [heq] at hq
      exact hq
    next c₂ e heq =>
      simp only [finalState, Option.some.injEq] at h
      subst h
      have hq := quiet_handle_server_challenge c challenge
      rw [heq] at hq
      exact hq
  | Disconnect kind =>
    simp only [WebConnection.on_server_message] at h
    simp only [finalState, Option.some.injEq] at h
    subst h
    exact Quiet.refl c
  | PresenceChange jid status time =>
    simp only [WebConnection.on_server_message] at h
    simp only [WaEvent.from_server_message, finalState,
      Option.some.injEq] at h
    subst h
    exact ⟨rfl, [], by simp, rfl⟩
  | MessageAck message_id level sender receiver participant time =>
    simp only [WebConnection.on_server_message] at h
    cases hj : c.user_jid <;>
      simp only [WaEvent.from_server_message, hj, finalState,
        Option.some.injEq] at h <;> subst h <;>
      exact ⟨rfl, [], by simp, rfl⟩
  | MessageAcks message_ids level sender receiver participant time =>
    simp only [WebConnection.on_server_message] at h
    cases hj : c.user_jid <;>
      simp only [WaEvent.from_server_message, hj, finalState,
        Option.some.injEq] at h <;> subst h <;>
      exact ⟨rfl, [], by simp, rfl⟩
  | GroupIntroduce newly_created inducer meta =>
    simp only [WebConnection.on_server_message] at h
    simp only [WaEvent.from_server_message, finalState,
      Option.some.injEq] at h
    subst h
    exact ⟨rfl, [], by simp, rfl⟩
  | GroupParticipantsChange group change inducer participants =>
    simp only [WebConnection.on_server_message] at h
    simp only [WaEvent.from_server_message, finalState,
      Option.some.injEq] at h
    subst h
    exact ⟨rfl, [], by simp, rfl⟩
  | StatusChange jid status =>
    simp only [WebConnection.on_server_message] at h
    simp only [WaEvent.from_server_message, finalState,
      Option.some.injEq] at h
    subst h
    exact ⟨rfl, [], by simp, rfl⟩
  | PictureChange jid removed =>
    simp only [WebConnection.on_server_message] at h
    simp only [WaEvent.from_server_message, finalState,
      Option.some.injEq] at h
    subst h
    exact ⟨rfl, [], by simp, rfl⟩
  | GroupSubjectChange group subject subject_time subject_owner =>
    simp only [WebConnection.on_server_message] at h
    simp only [WaEvent.from_server_message, finalState,
      Option.some.injEq] at h
    subst h
    exact ⟨rfl, [], by simp, rfl⟩

theorem quiet_callbacks_update (c : WebConnection)
    (y : List (String × CallbackType)) : Quiet c { c with callbacks := y } :=
  ⟨rfl, [], by simp, rfl⟩

theorem quiet_on_message (c : WebConnection) (m : Option WsMessageIn)
    (c' : WebConnection) (h : finalState (c.on_message m) = some c') :
    Quiet c c' := by
  cases m with
  | none =>
    simp only [WebConnection.on_message, finalState, Option.some.injEq] at h
    subst h
    exact Quiet.refl c
  | some message =>
    rcases message with ⟨tag, payload⟩
    cases payload with
    | Json p =>
      simp only [WebConnection.on_message] at h
      split at h
      next ct hcb =>
        split at h
        next c₂ heq =>
          simp only [finalState, Option.some.injEq] at h
          subst h
          have hq := quiet_handle_callback_json
            { c with callbacks := cbRemove c.callbacks tag } p ct
          rw [heq] at hq
          exact (quiet_callbacks_update c _).trans hq
        next c₂ e heq =>
          simp only [finalState, Option.some.injEq] at h
          subst h
          have hq := quiet_handle_callback_json
            { c with callbacks := cbRemove c.callbacks tag } p ct
          rw [heq] at hq
          exact (quiet_callbacks_update c _).trans hq
      next hcb =>
        split at h
        next r hdes => exact quiet_on_server_message c r c' h
        next e hdes =>
          simp only [finalState, Option.some.injEq] at h
          subst h
          exact Quiet.refl c
    | BinarySimple p =>
      simp only [WebConnection.on_message] at h
      split at h
      next e hdec =>
        simp only [finalState, Option.some.injEq] at h
        subst h
        exact Quiet.refl c
      next dec hdec =>
        split at h
        next e hdes =>
          simp only [finalState, Option.some.injEq] at h
          subst h
          exact Quiet.refl c
        next payload hdes =>
          split at h
          next ct hcb =>
            split at h
            next c₂ heq =>
              simp only [finalState, Option.some.injEq] at h
              subst h
              have hq := quiet_handle_callback_node
                { c with callbacks := cbRemove c.callbacks tag } payload ct
              rw [heq] at hq
              exact (quiet_callbacks_update c _).trans hq
            next c₂ e heq =>
              simp only [finalState, Option.some.injEq] at h
              subst h
              have hq := quiet_handle_callback_node
                { c with callbacks := cbRemove c.callbacks tag } payload ct
              rw [heq] at hq
              exact (quiet_callbacks_update c _).trans hq
          next hcb =>
            split at h
            next am hdes2 =>
              simp only [finalState, Option.some.injEq] at h
              subst h
              exact ⟨rfl, [], by simp, rfl⟩
            next e hdes2 =>
              simp only [finalState, Option.some.injEq] at h
              subst h
              exact Quiet.refl c
    | Empty =>
      simp only [WebConnection.on_message] at h
      split at h
      · split at h
        next c₂ heq =>
          simp only [finalState, Option.some.injEq] at h
          subst h
          have hq := quiet_generate_empty_ack c tag
          rw [heq] at hq
          exact hq
        next c₂ e heq =>
          simp only [finalState, Option.some.injEq] at h
          subst h
          have hq := quiet_generate_empty_ack c tag
          rw [heq] at hq
          exact hq
      · simp only [finalState, Option.some.injEq] at h
        subst h
        exact Quiet.refl c
    | Pong =>
      simp only [WebConnection.on_message, finalState,
        Option.some.injEq] at h
      subst h
      exact Quiet.refl c
    | BinaryEphemeral metric p =>
      simp only [WebConnection.on_message, finalState,
        Option.some.injEq] at h
      subst h
      exact Quiet.refl c

theorem send_app_message_appends (c : WebConnection) (tag : Option String)
    (metric : Metric) (am : AppMessage) (ct : CallbackType) :
    ∃ new, ((c.send_app_message tag metric am ct).1).ws_outbox
      = c.ws_outbox ++ new := by
  unfold WebConnection.send_app_message WebConnection.send_node_message
    WebConnection.send_binary_message
  cases hs : c.session_state <;> cases tag <;>
    simp [hs, WebConnection.send_ws_message, WebConnection.alloc_message_tag]

theorem send_app_message_facts (c : WebConnection) (tag : Option String)
    (metric : Metric) (am : AppMessage) (ct : CallbackType)
    (hw : c.epoch + 1 < 2 ^ 32) :
    ((c.send_app_message tag metric am ct).1).epoch = c.epoch + 1 ∧
    ∃ new, ((c.send_app_message tag metric am ct).1).ws_outbox
        = c.ws_outbox ++ new ∧
      (appEpochs new = [] ∨ appEpochs new = [c.epoch + 1]) := by
  unfold WebConnection.send_app_message WebConnection.send_node_message
    WebConnection.send_binary_message
  cases hs : c.session_state with
  | Established ps =>
    cases tag with
    | none =>
      refine ⟨?_, [WsFrame.frame ⟨natRepr c.tag_counter,
          .BinaryEphemeral metric (sign_and_encrypt_message ps.enc ps.mac
            (NodeVal.serializeNode (AppMessage.serialize am
              ((c.epoch + 1) % 2 ^ 32))))⟩], ?_, .inr ?_⟩
      · simp [WebConnection.send_ws_message,
          WebConnection.alloc_message_tag] <;> omega
      · simp [WebConnection.send_ws_message,
          WebConnection.alloc_message_tag, WebsocketMessage.serialize]
      · simp [appEpochs, frameEpoch, sign_and_encrypt_message,
          NodeVal.serializeNode, AppMessage.serialize] <;> omega
    | some t =>
      refine ⟨?_, [WsFrame.frame ⟨t,
          .BinaryEphemeral metric (sign_and_encrypt_message ps.enc ps.mac
            (NodeVal.serializeNode (AppMessage.serialize am
              ((c.epoch + 1) % 2 ^ 32))))⟩], ?_, .inr ?_⟩
      · simp [WebConnection.send_ws_message] <;> omega
      · simp [WebConnection.send_ws_message, WebsocketMessage.serialize]
      · simp [appEpochs, frameEpoch, sign_and_encrypt_message,
          NodeVal.serializeNode, AppMessage.serialize] <;> omega
  | PendingNew pk cid =>
    cases tag <;>
      exact ⟨by simp <;> omega, [], by simp, .inl rfl⟩
  | PendingPersistent ps =>
    cases tag <;>
      exact ⟨by simp <;> omega, [], by simp, .inl rfl⟩

theorem send_group_command_appends (c : WebConnection) (cmd : GroupCommand)
    (participants : List Jid) (c' : WebConnection)
    (h : finalState (c.send_group_command cmd participants) = some c') :
    ∃ new, c'.ws_outbox = c.ws_outbox ++ new := by
  unfold WebConnection.send_group_command at h
  split at h
  next tag₁ c₁ hj =>
    have hc₁ : c₁ = c.alloc_message_tag.2 := (congrArg Prod.snd hj).symm
    have hws : c₁.ws_outbox = c.ws_outbox := by rw [hc₁]; rfl
    split at h
    next hjid =>
      simp [finalState] at h
    next inducer hjid =>
      dsimp only [] at h
      split at h
      next c₂ heq =>
        simp only [finalState, Option.some.injEq] at h
        subst h
        obtain ⟨new, hn⟩ := send_app_message_appends c₁ (some tag₁) .Group
          (.MessagesEvents (some .Set)
            [.GroupCommand inducer participants tag₁ cmd]) .Noop
        rw [heq] at hn
        refine ⟨new, ?_⟩
        rw [← hws]
        exact hn
      next c₂ e heq =>
        simp only [finalState, Option.some.injEq] at h
        subst h
        obtain ⟨new, hn⟩ := send_app_message_appends c₁ (some tag₁) .Group
          (.MessagesEvents (some .Set)
            [.GroupCommand inducer participants tag₁ cmd]) .Noop
        rw [heq] at hn
        refine ⟨new, ?_⟩
        rw [← hws]
        exact hn

theorem apply_ws_appends (r : WaRequest) (c c' : WebConnection)
    (h : finalState (r.apply c) = some c') :
    ∃ new, c'.ws_outbox = c.ws_outbox ++ new := by
  cases r with
  | MessagePlayed mid peer =>
    simp only [WaRequest.apply, WebConnection.increment_epoch,
      WebConnection.send_set_app_event, finalState_liftStep,
      Option.some.injEq] at h
    subst h
    exact send_app_message_appends ..
  | MessageRead mid peer =>
    simp only [WaRequest.apply, WebConnection.send_set_app_event,
      finalState_liftStep, Option.some.injEq] at h
    subst h
    exact send_app_message_appends ..
  | SetPresence presence jid =>
    simp only [WaRequest.apply, WebConnection.send_set_app_event,
      finalState_liftStep, Option.some.injEq] at h
    subst h
    exact send_app_message_appends ..
  | SubscribePresence jid =>
    simp only [WaRequest.apply, finalState, Option.some.injEq] at h
    subst h
    exact ⟨_, rfl⟩
  | SetStatus st =>
    simp only [WaRequest.apply, WebConnection.send_set_app_event,
      finalState_liftStep, Option.some.injEq] at h
    subst h
    exact send_app_message_appends ..
  | SetNotifyName st =>
    simp only [WaRequest.apply, WebConnection.send_set_app_event,
      finalState_liftStep, Option.some.injEq] at h
    subst h
    exact send_app_message_appends ..
  | SetProfileBlocked jid blocked =>
    simp only [WaRequest.apply, WebConnection.send_set_app_event,
      finalState_liftStep, Option.some.injEq] at h
    subst h
    exact send_app_message_appends ..
  | ChatAction jid action =>
    simp only [WaRequest.apply, WebConnection.send_set_app_event,
      finalState_liftStep, Option.some.injEq] at h
    subst h
    exact send_app_message_appends ..
  | SendMessage msg =>
    simp only [WaRequest.apply] at h
    split at h
    · simp only [finalState, Option.some.injEq] at h
      subst h
      exact ⟨[], by simp⟩
    · simp only [finalState_liftStep, Option.some.injEq] at h
      subst h
      exact send_app_message_appends ..
  | CreateGroup subject participants =>
    simp only [WaRequest.apply] at h
    exact send_group_command_appends c _ participants c' h
  | ChangeGroupParticipants jid change participants =>
    simp only [WaRequest.apply] at h
    exact send_group_command_appends c _ participants c' h
  | GetMessageHistoryBefore jid mid count uuid =>
    simp only [WaRequest.apply, finalState_liftStep, Option.some.injEq] at h
    subst h
    exact send_app_message_appends ..
  | RequestFileUpload hash media_type uuid =>
    simp only [WaRequest.apply, finalState, Option.some.injEq] at h
    subst h
    exact ⟨_, rfl⟩
  | RequestMediaConn uuid =>
    simp only [WaRequest.apply, finalState, Option.some.injEq] at h
    subst h
    exact ⟨_, rfl⟩
  | GetProfilePicture jid =>
    simp only [WaRequest.apply, finalState, Option.some.injEq] at h
    subst h
    exact ⟨_, rfl⟩
  | GetProfileStatus jid =>
    simp only [WaRequest.apply, finalState, Option.some.injEq] at h
    subst h
    exact ⟨_, rfl⟩
  | GetGroupMetadata jid =>
    simp only [WaRequest.apply, finalState, Option.some.injEq] at h
    subst h
    exact ⟨_, rfl⟩

theorem step_order (s : EngineRun) (op : EngineOp) (s' : EngineRun)
    (h : finalStateW (stepWire s op) = some s') :
    reqFrames (allFrames s')
      = reqFrames (allFrames s) ++ opNewReqFrames s op := by
  cases op with
  | submit r =>
    unfold stepWire at h
    dsimp only [stepOp] at h
    rcases ha : r.apply s.conn with c | ⟨c, e⟩ | _ <;> rw [ha] at h <;>
      simp only [finalStateW, Option.some.injEq] at h
    · subst h
      obtain ⟨new, hn⟩ := apply_ws_appends r s.conn c (by rw [ha]; rfl)
      simp [allFrames, opNewReqFrames, stepOp, ha, hn, reqFrames_append,
        List.drop_left, finalState]
    · subst h
      obtain ⟨new, hn⟩ := apply_ws_appends r s.conn c (by rw [ha]; rfl)
      simp [allFrames, opNewReqFrames, stepOp, ha, hn, reqFrames_append,
        List.drop_left, finalState]
    · exact Option.noConfusion h
  | pingTimer =>
    unfold stepWire at h
    dsimp only [stepOp] at h
    simp only [finalStateW, Option.some.injEq] at h
    subst h
    simp [allFrames, WebConnection.on_ping_timer, opNewReqFrames,
      reqFrames_append, reqFrames, isReqFrame, List.filter]
  | incoming m =>
    unfold stepWire at h
    dsimp only [stepOp] at h
    rcases ha : ({ s.conn with response_timer := false }).on_message m
        with c | ⟨c, e⟩ | _ <;> rw [ha] at h <;>
      simp only [finalStateW, Option.some.injEq] at h
    · subst h
      obtain ⟨_, new, hn, _⟩ := quiet_on_message _ m c (by rw [ha]; rfl)
      simp only at hn
      simp [allFrames, opNewReqFrames, stepOp, ha, hn, reqFrames_append,
        List.drop_left, finalState]
    · subst h
      obtain ⟨_, new, hn, _⟩ := quiet_on_message _ m c (by rw [ha]; rfl)
      simp only at hn
      simp [allFrames, opNewReqFrames, stepOp, ha, hn, reqFrames_append,
        List.drop_left, finalState]
    · exact Option.noConfusion h
  | flush =>
    unfold stepWire at h
    dsimp only [stepOp, WebConnection.poll_flush] at h
    simp only [finalStateW, Option.some.injEq] at h
    subst h
    simp [allFrames, opNewReqFrames, reqFrames_append]

/-- C4 (amended): over any run of submitted requests, inbound frames, ping
ticks and flushes, the request frames put on the wire (delivered then
pending, in wire order) are exactly the run's initial request frames
followed by the frames each operation appended, in operation order —
request frames are never reordered; the keepalive ping text frame,
however, is pushed onto the **front** of the outbound queue, ahead of any
still-pending frames (see the counterexample). -/
theorem run_frames_submission_order (ops : List EngineOp) :
    ∀ (s s' : EngineRun), finalStateW (runWire s ops) = some s' →
    reqFrames (allFrames s')
      = reqFrames (allFrames s) ++ runReqFrames s ops := by
  induction ops with
  | nil =>
    intro s s' h
    simp only [runWire, finalStateW, Option.some.injEq] at h
    subst h
    simp [runReqFrames]
  | cons op rest ih =>
    intro s s' h
    unfold runWire at h
    rcases hs1 : stepWire s op with s1 | ⟨s1, e⟩ | _ <;> rw [hs1] at h
    · have hstep := step_order s op s1 (by rw [hs1]; rfl)
      have hrest := ih s1 s' h
      have hrun : runReqFrames s (op :: rest)
          = opNewReqFrames s op ++ runReqFrames s1 rest := by
        rw [runReqFrames.eq_2, hs1]
      rw [hrest, hstep, hrun, List.append_assoc]
    · simp only [finalStateW, Option.some.injEq] at h
      subst h
      have hstep := step_order s op s1 (by rw [hs1]; rfl)
      have hrun : runReqFrames s (op :: rest) = opNewReqFrames s op := by
        rw [runReqFrames.eq_2, hs1]
      rw [hstep, hrun]
    · simp [finalStateW] at h

/-- C4 counterexample: the keepalive ping armed after a submission leaves
the engine **before** the earlier-submitted request frame — the wire order
of a submit-then-ping-then-flush run puts the ping text frame first,
refuting "the engine never places a later-enqueued frame ahead of an
earlier-enqueued one (including the keepalive ping frame)". -/
theorem ping_preempts_queue_counterexample :
    (runEnd ⟨sampleEstablished, []⟩
        [.submit (.SubscribePresence ⟨"44", false⟩), .pingTimer,
          .flush]).wire
      = [WsFrame.text "?,,",
        WsFrame.frame ⟨"6", .Json (.presenceSubscribe ⟨"44", false⟩)⟩] := by
  rfl

/-- C4 witness: the amended order equation at a concrete run. -/
theorem run_frames_submission_order_witness :
    reqFrames (allFrames (runEnd ⟨sampleEstablished, []⟩
        [.submit (.SubscribePresence ⟨"44", false⟩), .pingTimer, .flush]))
      = reqFrames (allFrames (⟨sampleEstablished, []⟩ : EngineRun))
        ++ runReqFrames ⟨sampleEstablished, []⟩
          [.submit (.SubscribePresence ⟨"44", false⟩), .pingTimer, .flush] :=
  run_frames_submission_order _ _ _ rfl

/-- What one submitted request does to the epoch counter and the outbound
queue: the epoch grows by at most two, and any newly appended app frames
carry strictly increasing epochs bracketed between the old and new counter
values. -/
def SubmitFacts (c c' : WebConnection) : Prop :=
  c.epoch ≤ c'.epoch ∧ c'.epoch ≤ c.epoch + 2 ∧
  ∃ new, c'.ws_outbox = c.ws_outbox ++ new ∧
    (appEpochs new).Chain' (· < ·) ∧
    ∀ e ∈ appEpochs new, c.epoch < e ∧ e ≤ c'.epoch

theorem submitFacts_of_quiet {c c' : WebConnection} (hq : Quiet c c') :
    SubmitFacts c c' := by
  obtain ⟨he, new, hws, ha⟩ := hq
  exact ⟨he.ge, by omega, new, hws, by simp [ha], by simp [ha]⟩

theorem submitFacts_send_app (c : WebConnection) (tag : Option String)
    (metric : Metric) (am : AppMessage) (ct : CallbackType)
    (hw1 : c.epoch + 1 < 2 ^ 32) :
    SubmitFacts c ((c.send_app_message tag metric am ct).1) := by
  obtain ⟨he, new, hws, ha⟩ := send_app_message_facts c tag metric am ct hw1
  refine ⟨by omega, by omega, new, hws, ?_, ?_⟩
  · rcases ha with ha | ha <;> simp [ha]
  · rcases ha with ha | ha <;> simp [ha, he]

theorem send_group_command_facts (c : WebConnection) (cmd : GroupCommand)
    (participants : List Jid) (c' : WebConnection)
    (hw : c.epoch + 1 < 2 ^ 32)
    (h : finalState (c.send_group_command cmd participants) = some c') :
    SubmitFacts c c' := by
  unfold WebConnection.send_group_command at h
  split at h
  next tag₁ c₁ hj =>
    have hc₁ : c₁ = c.alloc_message_tag.2 := (congrArg Prod.snd hj).symm
    have hE : c₁.epoch = c.epoch := by rw [hc₁]; rfl
    have hWs : c₁.ws_outbox = c.ws_outbox := by rw [hc₁]; rfl
    have hw1' : c₁.epoch + 1 < 2 ^ 32 := by rw [hE]; omega
    split at h
    next hjid =>
      simp [finalState] at h
    next inducer hjid =>
      dsimp only [] at h
      split at h
      next c₂ heq =>
        simp only [finalState, Option.some.injEq] at h
        subst h
        have hf := submitFacts_send_app c₁ (some tag₁) .Group
          (.MessagesEvents (some .Set)
            [.GroupCommand inducer participants tag₁ cmd]) .Noop hw1'
        rw [heq] at hf
        dsimp only [] at hf
        obtain ⟨h1, h2, new, hws, hch, hb⟩ := hf
        rw [hE] at h1 h2 hb
        rw [hWs] at hws
        exact ⟨h1, h2, new, hws, hch, hb⟩
      next c₂ e heq =>
        simp only [finalState, Option.some.injEq] at h
        subst h
        have hf := submitFacts_send_app c₁ (some tag₁) .Group
          (.MessagesEvents (some .Set)
            [.GroupCommand inducer participants tag₁ cmd]) .Noop hw1'
        rw [heq] at hf
        dsimp only [] at hf
        obtain ⟨h1, h2, new, hws, hch, hb⟩ := hf
        rw [hE] at h1 h2 hb
        rw [hWs] at hws
        exact ⟨h1, h2, new, hws, hch, hb⟩

theorem apply_step_facts (r : WaRequest) (c c' : WebConnection)
    (hw : c.epoch + 2 < 2 ^ 32) (h : finalState (r.apply c) = some c') :
    SubmitFacts c c' := by
  have hw1 : c.epoch + 1 < 2 ^ 32 := by omega
  cases r with
  | MessagePlayed mid peer =>
    simp only [WaRequest.apply, WebConnection.increment_epoch,
      WebConnection.send_set_app_event, finalState_liftStep,
      Option.some.injEq] at h
    subst h
    have hE : ({ c with epoch := (c.epoch + 1) % 2 ^ 32 }).epoch
        = c.epoch + 1 := Nat.mod_eq_of_lt hw1
    have hw2 : ({ c with epoch := (c.epoch + 1) % 2 ^ 32 }).epoch + 1
        < 2 ^ 32 := by rw [hE]; omega
    obtain ⟨he, new, hws, ha⟩ := send_app_message_facts
      { c with epoch := (c.epoch + 1) % 2 ^ 32 } none .Received
      (.MessagesEvents (some .Set) [.MessagePlayed mid peer]) .Noop hw2
    rw [hE] at he ha
    refine ⟨by omega, by omega, new, hws, ?_, ?_⟩
    · rcases ha with ha | ha <;> simp [ha]
    · intro e hme
      rcases ha with ha | ha
      · simp [ha] at hme
      · rw [ha] at hme
        simp only [List.mem_singleton] at hme
        subst hme
        refine ⟨by omega, ?_⟩
        rw [he]
  | MessageRead mid peer =>
    simp only [WaRequest.apply, WebConnection.send_set_app_event,
      finalState_liftStep, Option.some.injEq] at h
    subst h
    exact submitFacts_send_app c _ _ _ _ hw1
  | SetPresence presence jid =>
    simp only [WaRequest.apply, WebConnection.send_set_app_event,
      finalState_liftStep, Option.some.injEq] at h
    subst h
    exact submitFacts_send_app c _ _ _ _ hw1
  | SetStatus st =>
    simp only [WaRequest.apply, WebConnection.send_set_app_event,
      finalState_liftStep, Option.some.injEq] at h
    subst h
    exact submitFacts_send_app c _ _ _ _ hw1
  | SetNotifyName st =>
    simp only [WaRequest.apply, WebConnection.send_set_app_event,
      finalState_liftStep, Option.some.injEq] at h
    subst h
    exact submitFacts_send_app c _ _ _ _ hw1
  | SetProfileBlocked jid blocked =>
    simp only [WaRequest.apply, WebConnection.send_set_app_event,
      finalState_liftStep, Option.some.injEq] at h
    subst h
    exact submitFacts_send_app c _ _ _ _ hw1
  | ChatAction jid action =>
    simp only [WaRequest.apply, WebConnection.send_set_app_event,
      finalState_liftStep, Option.some.injEq] at h
    subst h
    exact submitFacts_send_app c _ _ _ _ hw1
  | SendMessage msg =>
    simp only [WaRequest.apply] at h
    split at h
    · simp only [finalState, Option.some.injEq] at h
      subst h
      exact submitFacts_of_quiet (Quiet.refl c)
    · simp only [finalState_liftStep, Option.some.injEq] at h
      subst h
      exact submitFacts_send_app c _ _ _ _ hw1
  | CreateGroup subject participants =>
    simp only [WaRequest.apply] at h
    exact send_group_command_facts c _ participants c' hw1 h
  | ChangeGroupParticipants jid change participants =>
    simp only [WaRequest.apply] at h
    exact send_group_command_facts c _ participants c' hw1 h
  | GetMessageHistoryBefore jid mid count uuid =>
    simp only [WaRequest.apply, finalState_liftStep, Option.some.injEq] at h
    subst h
    exact submitFacts_send_app c _ _ _ _ hw1
  | RequestFileUpload hash media_type uuid =>
    simp only [WaRequest.apply, finalState, Option.some.injEq] at h
    subst h
    exact submitFacts_of_quiet (quiet_send_json ..)
  | RequestMediaConn uuid =>
    simp only [WaRequest.apply, finalState, Option.some.injEq] at h
    subst h
    exact submitFacts_of_quiet (quiet_send_json ..)
  | GetProfilePicture jid =>
    simp only [WaRequest.apply, finalState, Option.some.injEq] at h
    subst h
    exact submitFacts_of_quiet (quiet_send_json ..)
  | GetProfileStatus jid =>
    simp only [WaRequest.apply, finalState, Option.some.injEq] at h
    subst h
    exact submitFacts_of_quiet (quiet_send_json ..)
  | GetGroupMetadata jid =>
    simp only [WaRequest.apply, finalState, Option.some.injEq] at h
    subst h
    exact submitFacts_of_quiet (quiet_send_json ..)
  | SubscribePresence jid =>
    simp only [WaRequest.apply, finalState, Option.some.injEq] at h
    subst h
    exact submitFacts_of_quiet (quiet_send_json ..)

theorem step_epoch_inv (s : EngineRun) (op : EngineOp) (s' : EngineRun)
    (hw : s.conn.epoch + 2 < 2 ^ 32)
    (h : finalStateW (stepWire s op) = some s') (hinv : EpochInv s) :
    EpochInv s' ∧ s.conn.epoch ≤ s'.conn.epoch ∧
      s'.conn.epoch ≤ s.conn.epoch + 2 := by
  obtain ⟨hch, hbd⟩ := hinv
  cases op with
  | pingTimer =>
    unfold stepWire at h
    dsimp only [stepOp] at h
    simp only [finalStateW, Option.some.injEq] at h
    subst h
    have hAF : appEpochs (allFrames ⟨s.conn.on_ping_timer, s.wire⟩)
        = appEpochs (allFrames s) := by
      simp [allFrames, WebConnection.on_ping_timer, appEpochs, frameEpoch]
    have hE : (⟨s.conn.on_ping_timer, s.wire⟩ : EngineRun).conn.epoch
        = s.conn.epoch := rfl
    refine ⟨⟨by rw [hAF]; exact hch, ?_⟩, le_rfl, by rw [hE]; omega⟩
    rw [hAF, hE]
    exact hbd
  | flush =>
    unfold stepWire at h
    dsimp only [stepOp, WebConnection.poll_flush] at h
    simp only [finalStateW, Option.some.injEq] at h
    subst h
    have hAF : appEpochs (allFrames
          ⟨{ s.conn with ws_outbox := [] }, s.wire ++ s.conn.ws_outbox⟩)
        = appEpochs (allFrames s) := by
      simp [allFrames]
    have hE : (⟨{ s.conn with ws_outbox := [] },
          s.wire ++ s.conn.ws_outbox⟩ : EngineRun).conn.epoch
        = s.conn.epoch := rfl
    refine ⟨⟨by rw [hAF]; exact hch, ?_⟩, le_rfl, by rw [hE]; omega⟩
    rw [hAF, hE]
    exact hbd
  | incoming m =>
    unfold stepWire at h
    dsimp only [stepOp] at h
    rcases ha : ({ s.conn with response_timer := false }).on_message m
        with c | ⟨c, e⟩ | _ <;> rw [ha] at h <;>
      simp only [finalStateW, Option.some.injEq] at h
    all_goals try exact Option.noConfusion h
    all_goals
      subst h
      obtain ⟨he, new, hn, hae⟩ := quiet_on_message _ m c (by rw [ha]; rfl)
      dsimp only at he hn
      have hE : (⟨c, s.wire⟩ : EngineRun).conn.epoch = s.conn.epoch := he
      have hAF : appEpochs (allFrames ⟨c, s.wire⟩)
          = appEpochs (allFrames s) := by
        simp [allFrames, hn, appEpochs_append, hae]
      refine ⟨⟨by rw [hAF]; exact hch, ?_⟩, by rw [hE], by rw [hE]; omega⟩
      rw [hAF, hE]
      exact hbd
  | submit r =>
    unfold stepWire at h
    dsimp only [stepOp] at h
    rcases ha : r.apply s.conn with c | ⟨c, e⟩ | _ <;> rw [ha] at h <;>
      simp only [finalStateW, Option.some.injEq] at h
    all_goals try exact Option.noConfusion h
    all_goals
      subst h
      obtain ⟨h1, h2, new, hws, hchn, hb⟩ :=
        apply_step_facts r s.conn c hw (by rw [ha]; rfl)
      have hE : (⟨c, s.wire⟩ : EngineRun).conn.epoch = c.epoch := rfl
      have hAF : appEpochs (allFrames ⟨c, s.wire⟩)
          = appEpochs (allFrames s) ++ appEpochs new := by
        simp [allFrames, hws, appEpochs_append]
      refine ⟨⟨?_, ?_⟩, by rw [hE]; exact h1, by rw [hE]; omega⟩
      · rw [hAF]
        refine List.chain'_append.mpr ⟨hch, hchn, ?_⟩
        intro x hx y hy
        have hx' := hbd x (List.mem_of_mem_getLast? hx)
        have hy' := (hb y (List.mem_of_mem_head? hy)).1
        omega
      · rw [hAF, hE]
        intro e he'
        rcases List.mem_append.mp he' with hold | hnew
        · have := hbd e hold
          omega
        · exact (hb e hnew).2

theorem run_epoch_inv (ops : List EngineOp) : ∀ (s s' : EngineRun),
    EpochInv s → s.conn.epoch + 2 * ops.length < 2 ^ 32 →
    finalStateW (runWire s ops) = some s' →
    EpochInv s' ∧ s.conn.epoch ≤ s'.conn.epoch ∧
      s'.conn.epoch ≤ s.conn.epoch + 2 * ops.length := by
  induction ops with
  | nil =>
    intro s s' hinv _ h
    simp only [runWire, finalStateW, Option.some.injEq] at h
    subst h
    exact ⟨hinv, le_rfl, by omega⟩
  | cons op rest ih =>
    intro s s' hinv hb h
    simp only [List.length_cons] at hb
    unfold runWire at h
    rcases hs1 : stepWire s op with s1 | ⟨s1, e⟩ | _ <;> rw [hs1] at h
    · obtain ⟨hinv1, hle1, hle2⟩ :=
        step_epoch_inv s op s1 (by omega) (by rw [hs1]; rfl) hinv
      obtain ⟨hinv', hle1', hle2'⟩ := ih s1 s' hinv1 (by omega) h
      refine ⟨hinv', le_trans hle1 hle1', ?_⟩
      simp only [List.length_cons]
      omega
    · simp only [finalStateW, Option.some.injEq] at h
      subst h
      obtain ⟨hinv1, hle1, hle2⟩ :=
        step_epoch_inv s op s1 (by omega) (by rw [hs1]; rfl) hinv
      refine ⟨hinv1, hle1, ?_⟩
      simp only [List.length_cons]
      omega
    · simp [finalStateW] at h

/-- C3: over any run of engine operations that starts with an epoch
invariant (in particular a fresh connection: empty queues) and stays
within the `u32` epoch range, the epochs stamped into the outbound app
messages — delivered then pending, in wire order — are strictly
increasing: each outbound app message carries a strictly greater epoch
than the previous one on the same connection. -/
theorem run_epochs_strictly_increasing (ops : List EngineOp)
    (s s' : EngineRun) (hinv : EpochInv s)
    (hbound : s.conn.epoch + 2 * ops.length < 2 ^ 32)
    (hrun : finalStateW (runWire s ops) = some s') :
    (appEpochs (allFrames s')).Chain' (· < ·) :=
  (run_epoch_inv ops s s' hinv hbound hrun).1.1

/-- C3 witness: a concrete run of four requests (one of them
`MessagePlayed`, which double-increments) on an established connection
yields strictly increasing stamped epochs. -/
theorem run_epochs_strictly_increasing_witness :
    (appEpochs (allFrames (runEnd ⟨sampleEstablished, []⟩
        [.submit (.SetStatus "a"),
          .submit (.MessagePlayed ⟨"m"⟩ (.Individual ⟨"4477", false⟩)),
          .flush, .submit (.SetStatus "b")]))).Chain' (· < ·) :=
  run_epochs_strictly_increasing
    [.submit (.SetStatus "a"),
      .submit (.MessagePlayed ⟨"m"⟩ (.Individual ⟨"4477", false⟩)),
      .flush, .submit (.SetStatus "b")]
    ⟨sampleEstablished, []⟩ _
    ⟨List.chain'_nil, by intro e he; simp [allFrames, appEpochs,
      sampleEstablished] at he⟩
    (by decide) rfl

end WaWeb
